import Mathlib

/-!
Verification of the PitCrew execution / mutation safety core against its
natural-language specification.

The Python sources embedded here (shallowly) are:
  * `pitcrew/tools/read_write.py` — class `ReadWrite` (path containment,
    atomic writes, snapshots),
  * `pitcrew/utils/diffs.py` — `create_patch` / `apply_patch` (together with
    models of the third-party `unidiff` parser and the standard-library
    `difflib.unified_diff` generator they delegate to),
  * `pitcrew/tools/executor.py` and `pitcrew/constants.py` — the sandboxed
    executor and its dangerous-command denylist,
  * `pitcrew/graph.py` — the relevant branches of `PitCrewGraph.handle_apply`
    (delete dispatch, patch dispatch, post-check loop, python→python3 rewrite).

Filesystem state is modelled explicitly: a store of text files keyed by
resolved absolute paths (component lists) plus a set of created directories.
Symlinks are not modelled (the project tree is taken symlink-free), so
`Path.resolve` is pure lexical `..`-normalisation.
-/

namespace PitCrew

/-- `str.startswith(p)`, stated on the character lists. -/
def pyStartsWith (s p : String) : Bool :=
  p.data.isPrefixOf s.data

/-- `str.split(sep)` for a one-character separator (`"".split(c) == [""]`,
separators at the ends produce empty pieces, exactly as in Python). -/
def splitOnCharGo (sep : Char) (cur : List Char) : List Char → List (List Char)
  | [] => [cur.reverse]
  | c :: rest =>
    if c = sep then cur.reverse :: splitOnCharGo sep [] rest
    else splitOnCharGo sep (c :: cur) rest

def pySplitChar (s : String) (sep : Char) : List String :=
  (splitOnCharGo sep [] s.data).map String.mk

/-! ## Paths

A POSIX path is a list of name components.  `resolveComps` models
`pathlib.Path.resolve()` on a symlink-free tree: it drops `.` and empty
components and makes `..` pop the previous component (at the root, `..`
stays at the root, as the OS does). -/

def resolveStep (acc : List String) (c : String) : List String :=
  if c = "" ∨ c = "." then acc
  else if c = ".." then acc.dropLast
  else acc ++ [c]

def resolveComps (cs : List String) : List String :=
  cs.foldl resolveStep []

/-- Model of `pathlib.Path(s)`: absolute iff the string starts with `/`;
components are the `/`-separated pieces with empty and `.` pieces dropped
(`pathlib` drops single dots but keeps `..`). -/
structure PyPath where
  isAbs : Bool
  comps : List String
deriving Repr, DecidableEq

def parsePath (s : String) : PyPath :=
  { isAbs := pyStartsWith s "/"
    comps := (pySplitChar s '/').filter (fun c => c ≠ "" ∧ c ≠ ".") }

/-- `ReadWrite._resolve_path` (read_write.py:251-263): an absolute input is
returned as-is (unresolved!); a relative one is joined onto the project root
and resolved. -/
def resolvePathComps (root : List String) (path : String) : List String :=
  let p := parsePath path
  if p.isAbs then p.comps else resolveComps (root ++ p.comps)

/-- `ReadWrite._is_safe_path` (read_write.py:265-278):
`path.resolve().relative_to(project_root.resolve())` succeeds iff the
resolved root is a componentwise prefix of the resolved path. -/
def isSafePath (root : List String) (p : List String) : Bool :=
  (resolveComps root).isPrefixOf (resolveComps p)

/-! ## Filesystem state

Files are text contents keyed by resolved absolute component lists; `dirs`
records directories created with `mkdir`.  A directory also exists
implicitly whenever some file or directory lies strictly below it. -/

structure FS where
  files : List (List String × String)
  dirs : List (List String)
deriving Repr

def fsFind (fs : FS) (k : List String) : Option String :=
  (fs.files.find? (fun e => e.1 == k)).map (fun e => e.2)

def fsSet (fs : FS) (k : List String) (c : String) : FS :=
  { fs with files := (k, c) :: fs.files.filter (fun e => !(e.1 == k)) }

def fsRemove (fs : FS) (k : List String) : FS :=
  { fs with files := fs.files.filter (fun e => !(e.1 == k)) }

def strictBelow (base k : List String) : Bool :=
  base.isPrefixOf k && decide (base.length < k.length)

def isDirAt (fs : FS) (k : List String) : Bool :=
  fs.dirs.any (fun d => d == k)
    || fs.dirs.any (fun d => strictBelow k d)
    || fs.files.any (fun e => strictBelow k e.1)

def pathExists (fs : FS) (k : List String) : Bool :=
  (fsFind fs k).isSome || isDirAt fs k

/-- `mkdir(parents=True, exist_ok=True)`: records the directory and all its
ancestors. -/
def mkdirParents (fs : FS) (k : List String) : FS :=
  { fs with dirs := k.inits ++ fs.dirs }

/-! ## `ReadWrite` (read_write.py)

`maxReadBytes` / `maxWriteBytes` are the session-configured ceilings
(`max_read_mb * 1024 * 1024` etc.). -/

structure ReadWrite where
  projectRoot : List String
  maxReadBytes : Nat
  maxWriteBytes : Nat

/-- `ReadWrite.read` (read_write.py:40-80).  Contents are modelled as text,
so the UTF-8 decode failure branch is unreachable in the model; size-limit
messages elide the interpolated MB figures (display-only detail). -/
def ReadWrite.read (rw : ReadWrite) (fs : FS) (path : String) :
    Bool × Option String × Option String :=
  let fp := resolvePathComps rw.projectRoot path
  if !(isSafePath rw.projectRoot fp) then
    (false, none, some ("Path outside project root: " ++ path))
  else
    let k := resolveComps fp
    if !(pathExists fs k) then (false, none, some ("File not found: " ++ path))
    else
      match fsFind fs k with
      | none => (false, none, some ("Not a file: " ++ path))
      | some content =>
        if content.utf8ByteSize > rw.maxReadBytes then
          (false, none, some "File too large")
        else (true, some content, none)

/-- Temporary sibling used by the atomic write:
`file_path.with_suffix(file_path.suffix + ".tmp")`, which for regular file
names appends `.tmp` to the name. -/
def tempSibling (fp : List String) : List String :=
  fp.dropLast ++ [(fp.getLast?.getD "") ++ ".tmp"]

/-- `ReadWrite.write` (read_write.py:82-119).  `failAtReplace` injects an
`IOError` between the temp-file write and the rename (the failure point the
spec's atomicity property talks about); the handler then unlinks the temp
file.  On the success path the temp file is atomically renamed onto the
target. -/
def ReadWrite.write (rw : ReadWrite) (fs : FS) (path content : String)
    (failAtReplace : Bool) : FS × Bool × Option String :=
  let fp := resolvePathComps rw.projectRoot path
  if !(isSafePath rw.projectRoot fp) then
    (fs, false, some ("Path outside project root: " ++ path))
  else if content.utf8ByteSize > rw.maxWriteBytes then
    (fs, false, some "Content too large")
  else
    let fs1 := mkdirParents fs (resolveComps fp.dropLast)
    let tempK := resolveComps (tempSibling fp)
    let fs2 := fsSet fs1 tempK content
    if failAtReplace then
      (fsRemove fs2 tempK, false, some "Cannot write file")
    else
      (fsSet (fsRemove fs2 tempK) (resolveComps fp) content, true, none)

/-! ## Snapshots (read_write.py:152-249) -/

/-- `project_root / ".pitcrew" / "snapshots" / id`, as the OS resolves it. -/
def snapshotDir (root : List String) (snapshotId : String) : List String :=
  resolveComps (root ++ [".pitcrew", "snapshots", snapshotId])

def snapshotsRoot (root : List String) : List String :=
  resolveComps (root ++ [".pitcrew", "snapshots"])

/-- The per-file loop of `ReadWrite.create_snapshot` (read_write.py:167-189):
missing, unsafe or non-relative inputs are silently skipped; an existing path
that is not a regular file makes `shutil.copy2` raise, which the enclosing
`except` turns into a failure (partial copies are kept). -/
def snapshotCopyLoop (root snapDir : List String) :
    FS → List String → FS × Option String
  | fs, [] => (fs, none)
  | fs, f :: rest =>
    let fp := resolvePathComps root f
    let k := resolveComps fp
    if !(pathExists fs k) then snapshotCopyLoop root snapDir fs rest
    else if !(isSafePath root fp) then snapshotCopyLoop root snapDir fs rest
    else
      match fsFind fs k with
      | none => (fs, some "Cannot create snapshot")
      | some content =>
        let rel := k.drop (resolveComps root).length
        let dest := snapDir ++ rel
        let fs1 := mkdirParents fs dest.dropLast
        let fs2 := fsSet fs1 dest content
        snapshotCopyLoop root snapDir fs2 rest

/-- `ReadWrite.create_snapshot` (read_write.py:152-194).  The timestamp id
(`datetime.now().strftime("%Y%m%d_%H%M%S_%f")`) is ambient, so it enters the
model as the `snapshotId` parameter. -/
def ReadWrite.createSnapshot (rw : ReadWrite) (fs : FS) (files : List String)
    (snapshotId : String) : FS × Bool × Option String × Option String :=
  let snapDir := snapshotDir rw.projectRoot snapshotId
  let fs0 := mkdirParents fs snapDir
  match snapshotCopyLoop rw.projectRoot snapDir fs0 files with
  | (fs1, none) => (fs1, true, some snapshotId, none)
  | (fs1, some e) => (fs1, false, none, some e)

/-- `ReadWrite.restore_snapshot` (read_write.py:196-231): every regular file
strictly below the snapshot directory is copied back onto
`project_root / relative_path`, creating parents. -/
def ReadWrite.restoreSnapshot (rw : ReadWrite) (fs : FS) (snapshotId : String) :
    FS × Bool × Option String :=
  let snapDir := snapshotDir rw.projectRoot snapshotId
  if !(pathExists fs snapDir) then
    (fs, false, some ("Snapshot not found: " ++ snapshotId))
  else
    let toRestore := fs.files.filter (fun e => strictBelow snapDir e.1)
    let fs1 := toRestore.foldl
      (fun acc e =>
        let rel := e.1.drop snapDir.length
        let dest := resolveComps (rw.projectRoot ++ rel)
        fsSet (mkdirParents acc dest.dropLast) dest e.2) fs
    (fs1, true, none)

/-- Names directly below `base` that `iterdir` would report: the next
component of any recorded directory or file lying at or below
`base / name`. -/
def childNamesFrom (ks : List (List String)) (base : List String) : List String :=
  ks.filterMap (fun k =>
    if strictBelow base k then k.get? base.length else none)

/-- One name per directory entry, as `iterdir` yields them (each child once;
the enumeration below can repeat a name, so it is deduplicated keeping first
occurrences). -/
def dedupStrGo (seen : List String) : List String → List String
  | [] => []
  | x :: xs =>
    if x ∈ seen then dedupStrGo seen xs else x :: dedupStrGo (x :: seen) xs

def dedupStr (l : List String) : List String :=
  dedupStrGo [] l

/-- Descending insertion sort on strings, matching
`sorted(snapshots, reverse=True)` on distinct ids (Python compares strings
lexicographically by code point, as Lean's `String.lt` does). -/
def insertDescStr (x : String) : List String → List String
  | [] => [x]
  | y :: ys => if y < x then x :: y :: ys else y :: insertDescStr x ys

def sortDescStr (l : List String) : List String :=
  l.foldr insertDescStr []

/-- `ReadWrite.list_snapshots` (read_write.py:233-249): the names of the
directories directly below `.pitcrew/snapshots`, sorted newest (largest)
first. -/
def ReadWrite.listSnapshots (rw : ReadWrite) (fs : FS) : List String :=
  let base := snapshotsRoot rw.projectRoot
  if !(pathExists fs base) then []
  else
    let names :=
      dedupStr (childNamesFrom fs.dirs base ++ childNamesFrom (fs.files.map (fun e => e.1)) base)
    sortDescStr (names.filter (fun n => isDirAt fs (base ++ [n])))

/-! ## Line splitting

`str.splitlines(keepends=True)` (used by `create_patch` and `apply_patch`)
and the `io.StringIO` line iteration that `unidiff.PatchSet` uses to cut a
patch string into lines (split after each `\n` only). -/

/-- The line-boundary characters of `str.splitlines`. -/
def lineBreakChar (c : Char) : Bool :=
  c = '\n' || c = '\r' || c = '\x0b' || c = '\x0c' ||
  c = '\x1c' || c = '\x1d' || c = '\x1e' || c = '\x85' ||
  c = '\u2028' || c = '\u2029'

/-- `splitlines(keepends=True)` on the character list; `cur` is the reversed
current line. -/
def splitLinesKeepGo : List Char → List Char → List (List Char)
  | cur, [] => if cur.isEmpty then [] else [cur.reverse]
  | cur, '\r' :: '\n' :: rest =>
    (cur.reverse ++ ['\r', '\n']) :: splitLinesKeepGo [] rest
  | cur, c :: rest =>
    if lineBreakChar c then (cur.reverse ++ [c]) :: splitLinesKeepGo [] rest
    else splitLinesKeepGo (c :: cur) rest

def pySplitLinesKeep (s : String) : List String :=
  (splitLinesKeepGo [] s.data).map String.mk

/-- `io.StringIO` iteration: lines are cut after each `\n` only (the default
`newline` mode of `StringIO` on an in-memory string). -/
def splitAfterNlGo : List Char → List Char → List (List Char)
  | cur, [] => if cur.isEmpty then [] else [cur.reverse]
  | cur, c :: rest =>
    if c = '\n' then (cur.reverse ++ [c]) :: splitAfterNlGo [] rest
    else splitAfterNlGo (c :: cur) rest

def splitKeepNl (s : String) : List String :=
  (splitAfterNlGo [] s.data).map String.mk

/-! ## `difflib` (CPython 3.11) — the pieces `create_patch` delegates to

`diffs.create_patch` calls `difflib.unified_diff` on
`splitlines(keepends=True)` line lists with `lineterm=""` and joins the
generated lines with `"".join`.  The model below ports
`SequenceMatcher(None, a, b)` (so `isjunk=None`: `bjunk` is empty and the
junk-extension loops of `find_longest_match` never fire, while `autojunk`
popularity filtering applies for `len(b) >= 200`), `get_matching_blocks`,
`get_opcodes`, `get_grouped_opcodes(3)` and `unified_diff` itself.
While-loops are modelled with an explicit fuel equal to the exact bound the
loop's decreasing index gives. -/

def lookupNat (m : List (Nat × Nat)) (k : Nat) : Nat :=
  (((m.find? (fun e => e.1 == k)).map (fun e => e.2)).getD 0)

def lookupIdx (m : List (String × List Nat)) (k : String) : List Nat :=
  (((m.find? (fun e => e.1 == k)).map (fun e => e.2)).getD [])

def assocAppend (key : String) (i : Nat) :
    List (String × List Nat) → List (String × List Nat)
  | [] => [(key, [i])]
  | (k, v) :: rest =>
    if k = key then (k, v ++ [i]) :: rest else (k, v) :: assocAppend key i rest

/-- `SequenceMatcher.__chain_b`: `b2j` maps a line of `b` to its ascending
index list; with `autojunk` on and `len(b) >= 200`, popular lines
(more than `len(b)//100 + 1` occurrences) are purged. -/
def b2jBuild (b : List String) : List (String × List Nat) :=
  let m := b.enum.foldl (fun m p => assocAppend p.2 p.1 m) []
  let n := b.length
  if n ≥ 200 then m.filter (fun e => !(e.2.length > n / 100 + 1)) else m

/-- Inner `for j in b2j.get(a[i], ...)` loop of `find_longest_match`:
`j < blo` is skipped, iteration stops at the first `j >= bhi` (indices are
ascending), and the best block is updated on a strictly longer match. -/
def flmInner (blo bhi i : Nat) (js : List Nat) (j2len : List (Nat × Nat))
    (best : Nat × Nat × Nat) : List (Nat × Nat) × (Nat × Nat × Nat) :=
  (js.takeWhile (fun j => j < bhi)).foldl
    (fun acc j =>
      if j < blo then acc
      else
        let k := (if j = 0 then 0 else lookupNat j2len (j - 1)) + 1
        let best2 := if k > acc.2.2.2 then (i + 1 - k, j + 1 - k, k) else acc.2
        ((j, k) :: acc.1, best2))
    ([], best)

def flmPass (a : List String) (b2j : List (String × List Nat))
    (alo ahi blo bhi : Nat) : Nat × Nat × Nat :=
  ((List.range' alo (ahi - alo)).foldl
    (fun acc i => flmInner blo bhi i (lookupIdx b2j (a.getD i "\x00")) acc.1 acc.2)
    (([] : List (Nat × Nat)), (alo, blo, 0))).2

/-- First extension while-loop of `find_longest_match` (no junk, so the
`isbjunk` test is vacuously false).  Fuel is `besti - alo`, the exact number
of decrements available. -/
def extendLeft (a b : List String) (alo blo : Nat) :
    Nat → Nat × Nat × Nat → Nat × Nat × Nat
  | 0, st => st
  | fuel + 1, (i, j, k) =>
    if alo < i && blo < j && a.getD (i - 1) "\x00" == b.getD (j - 1) "\x01" then
      extendLeft a b alo blo fuel (i - 1, j - 1, k + 1)
    else (i, j, k)

def extendRight (a b : List String) (ahi bhi : Nat) :
    Nat → Nat × Nat × Nat → Nat × Nat × Nat
  | 0, st => st
  | fuel + 1, (i, j, k) =>
    if i + k < ahi && j + k < bhi && a.getD (i + k) "\x00" == b.getD (j + k) "\x01" then
      extendRight a b ahi bhi fuel (i, j, k + 1)
    else (i, j, k)

def findLongestMatch (a b : List String) (b2j : List (String × List Nat))
    (alo ahi blo bhi : Nat) : Nat × Nat × Nat :=
  let st := flmPass a b2j alo ahi blo bhi
  let st2 := extendLeft a b alo blo (st.1 - alo) st
  extendRight a b ahi bhi (ahi - (st2.1 + st2.2.2)) st2

/-- Ascending lexicographic order on match triples, as Python tuple
comparison sorts them. -/
def tripleLe (x y : Nat × Nat × Nat) : Bool :=
  x.1 < y.1 || (x.1 == y.1 &&
    (x.2.1 < y.2.1 || (x.2.1 == y.2.1 && x.2.2 ≤ y.2.2)))

def insertTriple (x : Nat × Nat × Nat) : List (Nat × Nat × Nat) → List (Nat × Nat × Nat)
  | [] => [x]
  | y :: ys => if tripleLe x y then x :: y :: ys else y :: insertTriple x ys

def sortTriples (l : List (Nat × Nat × Nat)) : List (Nat × Nat × Nat) :=
  l.foldr insertTriple []

/-- The `while queue:` loop of `get_matching_blocks`; the queue is a stack
with its top at the head.  Every pop removes one segment and pushes at most
two strictly smaller ones, so `2*(la+lb)+4` fuel is ample. -/
def matchingBlocksGo (a b : List String) (b2j : List (String × List Nat)) :
    Nat → List (Nat × Nat × Nat × Nat) → List (Nat × Nat × Nat) → List (Nat × Nat × Nat)
  | 0, _, acc => acc
  | _ + 1, [], acc => acc
  | fuel + 1, (alo, ahi, blo, bhi) :: qrest, acc =>
    let m := findLongestMatch a b b2j alo ahi blo bhi
    let i := m.1
    let j := m.2.1
    let k := m.2.2
    if k ≠ 0 then
      let q1 := if alo < i && blo < j then (alo, i, blo, j) :: qrest else qrest
      let q2 := if i + k < ahi && j + k < bhi then (i + k, ahi, j + k, bhi) :: q1 else q1
      matchingBlocksGo a b b2j fuel q2 (m :: acc)
    else matchingBlocksGo a b b2j fuel qrest acc

/-- Collapse adjacent equal blocks (the `non_adjacent` loop). -/
def mergeAdjacentGo : Nat → Nat → Nat → List (Nat × Nat × Nat) →
    List (Nat × Nat × Nat) → List (Nat × Nat × Nat)
  | i1, j1, k1, acc, [] => (if k1 ≠ 0 then (i1, j1, k1) :: acc else acc).reverse
  | i1, j1, k1, acc, (i2, j2, k2) :: rest =>
    if i1 + k1 == i2 && j1 + k1 == j2 then mergeAdjacentGo i1 j1 (k1 + k2) acc rest
    else mergeAdjacentGo i2 j2 k2 (if k1 ≠ 0 then (i1, j1, k1) :: acc else acc) rest

def getMatchingBlocks (a b : List String) : List (Nat × Nat × Nat) :=
  let b2j := b2jBuild b
  let raw := matchingBlocksGo a b b2j (2 * (a.length + b.length) + 4)
    [(0, a.length, 0, b.length)] []
  mergeAdjacentGo 0 0 0 [] (sortTriples raw) ++ [(a.length, b.length, 0)]

inductive OpTag where
  | equal
  | replace
  | delete
  | insert
deriving DecidableEq, Repr

structure OpCode where
  tag : OpTag
  i1 : Nat
  i2 : Nat
  j1 : Nat
  j2 : Nat
deriving DecidableEq, Repr

/-- `get_opcodes`, folded over the matching blocks. -/
def opcodesGo : Nat → Nat → List (Nat × Nat × Nat) → List OpCode
  | _, _, [] => []
  | i, j, (ai, bj, size) :: rest =>
    let pre : List OpCode :=
      if i < ai && j < bj then [⟨.replace, i, ai, j, bj⟩]
      else if i < ai then [⟨.delete, i, ai, j, bj⟩]
      else if j < bj then [⟨.insert, i, ai, j, bj⟩]
      else []
    let eq : List OpCode :=
      if size ≠ 0 then [⟨.equal, ai, ai + size, bj, bj + size⟩] else []
    pre ++ eq ++ opcodesGo (ai + size) (bj + size) rest

def getOpcodes (a b : List String) : List OpCode :=
  opcodesGo 0 0 (getMatchingBlocks a b)

def adjustFirstGroup (n : Nat) : List OpCode → List OpCode
  | [] => []
  | c :: rest =>
    if c.tag = .equal then ⟨c.tag, max c.i1 (c.i2 - n), c.i2, max c.j1 (c.j2 - n), c.j2⟩ :: rest
    else c :: rest

def adjustLastGroup (n : Nat) (l : List OpCode) : List OpCode :=
  let r : List OpCode :=
    match l.reverse with
    | [] => []
    | c :: rest =>
      if c.tag = .equal then ⟨c.tag, c.i1, min c.i2 (c.i1 + n), c.j1, min c.j2 (c.j1 + n)⟩ :: rest
      else c :: rest
  r.reverse

/-- The grouping loop of `get_grouped_opcodes`: a long unchanged stretch
closes the current group with `n` trailing context lines and opens the next
with `n` leading ones. -/
def groupedGo (n : Nat) : List OpCode → List OpCode → List (List OpCode) → List (List OpCode)
  | [], group, acc =>
    if !group.isEmpty &&
        !(group.length == 1 && (group.headD ⟨.equal, 0, 0, 0, 0⟩).tag == .equal) then
      acc ++ [group]
    else acc
  | c :: rest, group, acc =>
    if c.tag = .equal ∧ c.i2 - c.i1 > n + n then
      let closed := group ++ [⟨c.tag, c.i1, min c.i2 (c.i1 + n), c.j1, min c.j2 (c.j1 + n)⟩]
      groupedGo n rest [⟨c.tag, max c.i1 (c.i2 - n), c.i2, max c.j1 (c.j2 - n), c.j2⟩] (acc ++ [closed])
    else groupedGo n rest (group ++ [c]) acc

def getGroupedOpcodes (a b : List String) (n : Nat) : List (List OpCode) :=
  let codes := getOpcodes a b
  let codes := if codes.isEmpty then [⟨.equal, 0, 1, 0, 1⟩] else codes
  let codes := adjustFirstGroup n codes
  let codes := adjustLastGroup n codes
  groupedGo n codes [] []

def sliceList (l : List String) (i j : Nat) : List String :=
  (l.drop i).take (j - i)

/-- `difflib._format_range_unified`. -/
def formatRangeUnified (start stop : Nat) : String :=
  let beginning := start + 1
  let length := stop - start
  if length = 1 then toString beginning
  else toString (if length = 0 then beginning - 1 else beginning) ++ "," ++ toString length

/-- `difflib.unified_diff(a, b, fromfile, tofile, lineterm="")` as the list
of generated lines: header lines carry no terminator, content lines keep
whatever ending they had in the input. -/
def unifiedDiffLines (a b : List String) (fromfile tofile : String) : List String :=
  let groups := getGroupedOpcodes a b 3
  let header := if groups.isEmpty then [] else ["--- " ++ fromfile, "+++ " ++ tofile]
  header ++ groups.flatMap (fun g =>
    match g with
    | [] => []
    | first :: _ =>
      let last := g.getLastD first
      ("@@ -" ++ formatRangeUnified first.i1 last.i2 ++ " +" ++
        formatRangeUnified first.j1 last.j2 ++ " @@") ::
      g.flatMap (fun c =>
        if c.tag = .equal then (sliceList a c.i1 c.i2).map (fun l => " " ++ l)
        else
          (if c.tag = .replace || c.tag = .delete then
            (sliceList a c.i1 c.i2).map (fun l => "-" ++ l) else []) ++
          (if c.tag = .replace || c.tag = .insert then
            (sliceList b c.j1 c.j2).map (fun l => "+" ++ l) else [])))

/-- `create_patch` (diffs.py:9-31): `"".join(difflib.unified_diff(...))`
with `a/<filename>` and `b/<filename>` headers and `lineterm=""`. -/
def create_patch (original modified filename : String) : String :=
  String.join (unifiedDiffLines (pySplitLinesKeep original) (pySplitLinesKeep modified)
    ("a/" ++ filename) ("b/" ++ filename))

/-! ## `unidiff.PatchSet` (the parser `apply_patch` delegates to)

`apply_patch` (diffs.py:34-85) calls `unidiff.PatchSet(patch_str)`.  The
model below ports the parsing loop for ordinary unified diffs: source
(`--- `) and target (`+++ `) filename lines, `@@` hunk headers with their
body lines, blank-line tolerance after hunks, and the patch-info
fallthrough that resets the current file.  Git-specific extended headers
(`diff --git`, `index`, rename/binary records) are not modelled: no input
considered here contains them.  Parse errors mirror the
`UnidiffParseError` messages, which `apply_patch` surfaces as
`Failed to apply patch: <message>`. -/

inductive DiffLineType where
  | added
  | removed
  | context
  | noNewline
deriving DecidableEq, Repr

structure Hunk where
  sourceStart : Nat
  sourceLength : Nat
  targetStart : Nat
  targetLength : Nat
  body : List (DiffLineType × String)
deriving Repr

/-- `RE_SOURCE_FILENAME` / `RE_TARGET_FILENAME`: the marker followed by at
least one character that is neither a tab nor a newline. -/
def matchesFilenameHeader (marker l : String) : Bool :=
  pyStartsWith l marker &&
    (match (l.drop marker.length).data with
     | [] => false
     | c :: _ => !(c = '\t' || c = '\n'))

def dropLit : List Char → List Char → Option (List Char)
  | [], cs => some cs
  | _ :: _, [] => none
  | p :: ps, c :: cs => if c = p then dropLit ps cs else none

def takeDigitsGo (acc : Nat) (found : Bool) : List Char → Option (Nat × List Char)
  | [] => if found then some (acc, []) else none
  | c :: rest =>
    if c.isDigit then takeDigitsGo (acc * 10 + (c.toNat - 48)) true rest
    else if found then some (acc, c :: rest) else none

/-- `RE_HUNK_HEADER`: `@@ -(\d+)(?:,(\d+))? \+(\d+)(?:,(\d+))? @@[ ]?(.*)$`;
a missing length defaults to 1 (`unidiff.Hunk.__init__`), and anything may
follow the closing `@@` on the line. -/
def parseHunkHeader (l : String) : Option (Nat × Nat × Nat × Nat) := do
  let cs ← dropLit ['@', '@', ' ', '-'] l.data
  let (s1, cs) ← takeDigitsGo 0 false cs
  let (l1, cs) ←
    match cs with
    | ',' :: t => takeDigitsGo 0 false t
    | _ => some (1, cs)
  let cs ← dropLit [' ', '+'] cs
  let (s2, cs) ← takeDigitsGo 0 false cs
  let (l2, cs) ←
    match cs with
    | ',' :: t => takeDigitsGo 0 false t
    | _ => some (1, cs)
  let _ ← dropLit [' ', '@', '@'] cs
  pure (s1, l1, s2, l2)

/-- `RE_HUNK_BODY_LINE` (with `re.DOTALL`, so the value keeps the line
ending) and `RE_HUNK_EMPTY_BODY_LINE` (a bare line-ending counts as an
empty context line). -/
def classifyBodyLine (l : String) : Option (DiffLineType × String) :=
  match l.data with
  | '-' :: rest => some (.removed, String.mk rest)
  | '+' :: rest => some (.added, String.mk rest)
  | ' ' :: rest => some (.context, String.mk rest)
  | '\\' :: rest => some (.noNewline, String.mk rest)
  | _ => if l = "\n" || l = "\r" || l = "\r\n" then some (.context, l) else none

/-- `PatchedFile._parse_hunk`: consume body lines, tracking the source and
target line counters, until both hit the expected ends; over- and under-runs
raise. -/
def parseHunkBody (expSrc expTgt : Nat) :
    Nat → Nat → List (DiffLineType × String) → List String →
    Except String (List (DiffLineType × String) × List String)
  | srcNo, tgtNo, acc, [] =>
    if srcNo < expSrc ∨ tgtNo < expTgt then .error "Hunk is shorter than expected"
    else .ok (acc.reverse, [])
  | srcNo, tgtNo, acc, l :: rest =>
    match classifyBodyLine l with
    | none => .error ("Hunk diff line expected: " ++ l)
    | some (ty, v) =>
      let srcNo2 := match ty with
        | .removed => srcNo + 1
        | .context => srcNo + 1
        | _ => srcNo
      let tgtNo2 := match ty with
        | .added => tgtNo + 1
        | .context => tgtNo + 1
        | _ => tgtNo
      if srcNo2 > expSrc ∨ tgtNo2 > expTgt then .error "Hunk is longer than expected"
      else
        let acc2 := (ty, v) :: acc
        if srcNo2 = expSrc ∧ tgtNo2 = expTgt then .ok (acc2.reverse, rest)
        else parseHunkBody expSrc expTgt srcNo2 tgtNo2 acc2 rest

/-- The `PatchSet._parse` line loop.  `haveCur` says whether a current file
is active (hunks attach to the head of `done`, which holds the parsed files
most recent first).  The `fuel` argument only makes the recursion
structural: every step consumes at least one line, so the initial fuel of
`parsePatchSet` (the number of lines) is never exhausted and the fuel-out
clause is unreachable. -/
def parseLoop : Nat → Bool → List (List Hunk) → List String → Except String (List (List Hunk))
  | _, _, done, [] => .ok done.reverse
  | 0, _, done, _ :: _ => .ok done.reverse
  | fuel + 1, haveCur, done, l :: rest =>
    if matchesFilenameHeader "--- " l then parseLoop fuel false done rest
    else if matchesFilenameHeader "+++ " l then
      if haveCur then .error ("Target without source: " ++ l)
      else parseLoop fuel true ([] :: done) rest
    else
      match parseHunkHeader l with
      | some (s1, l1, s2, l2) =>
        if haveCur then
          match parseHunkBody (s1 + l1) (s2 + l2) s1 s2 [] rest with
          | .ok (body, rem) =>
            match done with
            | [] => .error ("Unexpected hunk found: " ++ l)
            | hs :: tl => parseLoop fuel true ((hs ++ [⟨s1, l1, s2, l2, body⟩]) :: tl) rem
          | .error e => .error e
        else .error ("Unexpected hunk found: " ++ l)
      | none =>
        if l = "\n" && haveCur then parseLoop fuel haveCur done rest
        else parseLoop fuel false done rest

def parsePatchSet (s : String) : Except String (List (List Hunk)) :=
  parseLoop (splitKeepNl s).length false [] (splitKeepNl s)

/-! ## `apply_patch` (diffs.py:34-85) -/

/-- One slice bound of a Python list slice: negative indices count from the
end, then everything clamps into `[0, n]`. -/
def pySliceIdx (n : Nat) (i : Int) : Nat :=
  if i < 0 then ((n : Int) + i).toNat else min i.toNat n

/-- Python slice assignment `l[i:j] = new`. -/
def pySliceAssign (l : List String) (i j : Int) (new : List String) : List String :=
  let s := pySliceIdx l.length i
  let e := max s (pySliceIdx l.length j)
  l.take s ++ new ++ l.drop e

/-- The `for hunk in reversed(patched_file)` loop (diffs.py:64-79): added
and context line values are spliced over the 0-indexed source range. -/
def applyHunks (lines : List String) (hunks : List Hunk) : List String :=
  hunks.reverse.foldl
    (fun ls h =>
      let ss : Int := (h.sourceStart : Int) - 1
      let newLines := h.body.filterMap (fun tv =>
        match tv.1 with
        | .added => some tv.2
        | .context => some tv.2
        | _ => none)
      pySliceAssign ls ss (ss + (h.sourceLength : Int)) newLines)
    lines

/-- `apply_patch` (diffs.py:34-85): `(success, result_content, error)`. -/
def apply_patch (content patchStr : String) : Bool × Option String × Option String :=
  match parsePatchSet patchStr with
  | .error e => (false, none, some ("Failed to apply patch: " ++ e))
  | .ok [] => (false, none, some "Empty patch")
  | .ok [file] =>
    (true, some (String.join (applyHunks (pySplitLinesKeep content) file)), none)
  | .ok (_ :: _ :: _) => (false, none, some "Patch contains multiple files")

/-! ## Command safety filter (constants.py:75-84, executor.py:134-147)

The eight `DANGEROUS_PATTERNS` regexes use only literals, `.`, `\s`,
`[a-z]`, `\b`, `*`, `+` and alternation-free sequencing, so a small matcher
over exactly those constructs embeds them.  `pattern.search` semantics: a
match may start at any position.  The commands under test are ASCII, where
Python's Unicode `\w`/`\s` agree with the ASCII classes used here. -/

inductive CharCls where
  | dot
  | ws
  | lower
deriving DecidableEq, Repr

def CharCls.matches : CharCls → Char → Bool
  | .dot, c => c ≠ '\n'
  | .ws, c => c = ' ' || c = '\t' || c = '\n' || c = '\r' || c = '\x0b' || c = '\x0c'
  | .lower, c => 'a' ≤ c && c ≤ 'z'

inductive RE where
  | eps
  | lit (c : Char)
  | cls (k : CharCls)
  | star (k : CharCls)
  | wb
  | seq (a b : RE)

def isWordChar (c : Char) : Bool :=
  c.isAlpha || c.isDigit || c = '_'

def isWordOpt : Option Char → Bool
  | none => false
  | some c => isWordChar c

/-- All ways of consuming zero or more characters of class `k`; each state
is the last consumed character together with the remaining input. -/
def starStates (k : CharCls) : Option Char → List Char → List (Option Char × List Char)
  | p, [] => [(p, [])]
  | p, c :: rest =>
    (p, c :: rest) :: (if k.matches c then starStates k (some c) rest else [])

/-- Nondeterministic matcher: the set of states after the pattern consumes a
prefix of each input state. -/
def reStep : RE → List (Option Char × List Char) → List (Option Char × List Char)
  | .eps, sts => sts
  | .lit c, sts => sts.filterMap (fun st =>
      match st.2 with
      | [] => none
      | x :: xs => if x = c then some (some x, xs) else none)
  | .cls k, sts => sts.filterMap (fun st =>
      match st.2 with
      | [] => none
      | x :: xs => if k.matches x then some (some x, xs) else none)
  | .star k, sts => sts.flatMap (fun st => starStates k st.1 st.2)
  | .wb, sts => sts.filter (fun st =>
      isWordOpt st.1 != isWordOpt st.2.head?)
  | .seq a b, sts => reStep b (reStep a sts)

/-- `x+` as `x` then `x*`. -/
def rePlus (k : CharCls) : RE := .seq (.cls k) (.star k)

def reSeq (l : List RE) : RE := l.foldr .seq .eps

def reLits (s : String) : RE := reSeq (s.data.map .lit)

/-- `pattern.search(command)`: try a match starting at every position,
tracking the character before the start for `\b`. -/
def searchFrom (r : RE) (p : Option Char) : List Char → Bool
  | [] => !(reStep r [(p, [])]).isEmpty
  | x :: xs => !(reStep r [(p, x :: xs)]).isEmpty || searchFrom r (some x) xs

def reSearch (r : RE) (s : String) : Bool :=
  searchFrom r none s.data

/-- `DANGEROUS_PATTERNS` (constants.py:75-84), in source order. -/
def DANGEROUS_PATTERNS : List (RE × String) :=
  [ (reSeq [.wb, reLits "sudo", .wb], "Use of sudo detected"),
    (reSeq [.wb, reLits "rm", rePlus .ws, reLits "-rf", rePlus .ws, .lit '/'],
      "Recursive delete of root directory"),
    (reSeq [reLits ":()\x7b", .star .dot, .lit '|', .star .dot, .lit '&', .star .dot, .lit '\x7d'],
      "Fork bomb pattern detected"),
    (reSeq [reLits "curl", .star .dot, .lit '|', .star .dot, reLits "sh"],
      "Piping curl to shell"),
    (reSeq [reLits "wget", .star .dot, .lit '|', .star .dot, reLits "sh"],
      "Piping wget to shell"),
    (reSeq [.wb, reLits "chmod", rePlus .ws, reLits "777"], "chmod 777 detected"),
    (reSeq [.lit '>', .star .ws, reLits "/dev/sd", .cls .lower],
      "Writing to block device"),
    (reSeq [.wb, reLits "dd", rePlus .ws, .star .dot, reLits "of=/dev/"],
      "dd to block device") ]

/-- `Executor.is_dangerous` (executor.py:134-147): first matching pattern
wins. -/
def isDangerous (command : String) : Bool × String :=
  match DANGEROUS_PATTERNS.find? (fun pr => reSearch pr.1 command) with
  | some pr => (true, pr.2)
  | none => (false, "")

/-- `ExecResult` (executor.py:13-22). -/
structure ExecResult where
  success : Bool
  stdout : String
  stderr : String
  exitCode : Int
  durationMs : Nat
  command : String
deriving DecidableEq, Repr

/-- What `Executor.run` does before any subprocess work: either the blocked
`ExecResult` (executor.py:61-71), or it goes on to spawn the command
(everything from executor.py:73 down, abstracted as `spawned`). -/
inductive RunOutcome where
  | blocked (res : ExecResult)
  | spawned (command : String)
deriving DecidableEq, Repr

def Executor.runModel (command : String) (sandbox : Bool) : RunOutcome :=
  let d := isDangerous command
  if d.1 && sandbox then
    .blocked ⟨false, "", "Command blocked: " ++ d.2, -1, 0, command⟩
  else .spawned command

/-! ## `PitCrewGraph.handle_apply` — the branches the claims are about -/

/-- The delete branch (graph.py:433-439): `file_path = self.project_root /
edit.path; file_path.unlink()` — no safety check of any kind; `unlink`
succeeds iff a regular file is at the OS-resolved location.  `Path./` keeps
an absolute right operand as-is and otherwise concatenates. -/
def handleDeleteBranch (root : List String) (fs : FS) (editPath : String) :
    FS × Bool :=
  let p := parsePath editPath
  let joined := if p.isAbs then p.comps else root ++ p.comps
  let k := resolveComps joined
  match fsFind fs k with
  | some _ => (fsRemove fs k, true)
  | none => (fs, false)

/-- Python `str.replace(old, new, 1)` on character lists: replace the first
occurrence of `old` (non-empty here), if any. -/
def replaceFirstGo (old new : List Char) : List Char → List Char
  | [] => []
  | c :: rest =>
    if old.isPrefixOf (c :: rest) then new ++ (c :: rest).drop old.length
    else c :: replaceFirstGo old new rest

def pyReplaceFirst (s old new : String) : String :=
  String.mk (replaceFirstGo old.data new.data s.data)

/-- The post-check command fixup (graph.py:445-448). -/
def fixPythonCommand (command : String) : String :=
  if pyStartsWith command "python " || command == "python" then
    pyReplaceFirst command "python" "python3"
  else command

/-- Python substring membership `needle in hay`. -/
def strContains (hay needle : String) : Bool :=
  go hay.data
where
  go : List Char → Bool
    | [] => needle.data.isPrefixOf []
    | c :: rest => needle.data.isPrefixOf (c :: rest) || go rest

/-- The content the creation-patch shortcut builds (graph.py:409-413): every
diff line starting with `+` but not `+++`, stripped of the leading `+`,
joined with newlines. -/
def extractAddedLines (patchContent : String) : String :=
  String.intercalate "\n"
    (((pySplitChar patchContent '\n').filter
      (fun l => pyStartsWith l "+" && !(pyStartsWith l "+++"))).map
      (fun l => l.drop 1))

/-- How the patch branch of `handle_apply` (graph.py:404-425) dispatches:
a diff containing `@@ -0,0 +` bypasses the patch engine entirely and writes
the extracted content; otherwise `ReadWrite.patch` (the engine) runs. -/
inductive PatchDispatch where
  | viaWrite (content : String)
  | viaEngine (patch : String)
deriving DecidableEq, Repr

def patchBranchDispatch (patchContent : String) : PatchDispatch :=
  if strContains patchContent "@@ -0,0 +" then .viaWrite (extractAddedLines patchContent)
  else .viaEngine patchContent

/-- The per-check retry loop of `handle_apply` (graph.py:450-476): up to
`max_retries = 3` executor invocations, stopping at the first success (or
after an auto-fix attempt between failures).  `results i` is the success of
the i-th `executor.run`; the value counts how many times `executor.run` is
called for this check. -/
def postCheckRunCount (results : Nat → Bool) : Nat :=
  go 3 0
where
  go : Nat → Nat → Nat
    | 0, _ => 0
    | remaining + 1, attempt =>
      1 + (if results attempt then 0
           else if remaining = 0 then 0
           else go remaining (attempt + 1))

/-! ## Store lemmas -/

theorem fsFind_mkdirParents (fs : FS) (d k : List String) :
    fsFind (mkdirParents fs d) k = fsFind fs k := rfl

theorem find_filter_ne (k q : List String) (h : q ≠ k) :
    ∀ l : List (List String × String),
      (l.filter (fun e => !(e.1 == k))).find? (fun e => e.1 == q) =
        l.find? (fun e => e.1 == q)
  | [] => rfl
  | e :: rest => by
    have ih := find_filter_ne k q h rest
    cases hbk : (e.1 == k) with
    | true =>
      have hek : e.1 = k := by simpa using hbk
      have hbq : (e.1 == q) = false := by
        simp [hek]
        exact fun hh => h hh.symm
      simp [List.filter_cons, hbk, List.find?_cons, hbq, ih]
    | false =>
      cases hbq : (e.1 == q) with
      | true => simp [List.filter_cons, hbk, List.find?_cons, hbq]
      | false => simp [List.filter_cons, hbk, List.find?_cons, hbq, ih]

theorem fsFind_fsSet_self (fs : FS) (k : List String) (c : String) :
    fsFind (fsSet fs k c) k = some c := by
  simp [fsFind, fsSet, List.find?_cons]

theorem fsFind_fsSet_ne (fs : FS) (k q : List String) (c : String) (h : q ≠ k) :
    fsFind (fsSet fs k c) q = fsFind fs q := by
  have hk : (k == q) = false := by
    simp
    exact fun he => h he.symm
  simp [fsFind, fsSet, List.find?_cons, hk, find_filter_ne k q h fs.files]

theorem fsFind_fsRemove_ne (fs : FS) (k q : List String) (h : q ≠ k) :
    fsFind (fsRemove fs k) q = fsFind fs q := by
  simp [fsFind, fsRemove, find_filter_ne k q h fs.files]

/-- Resolution appends an ordinary component. -/
theorem resolveComps_append_single (xs : List String) (c : String)
    (h1 : c ≠ "") (h2 : c ≠ ".") (h3 : c ≠ "..") :
    resolveComps (xs ++ [c]) = resolveComps xs ++ [c] := by
  simp [resolveComps, resolveStep, List.foldl_append, h1, h2, h3]

set_option maxHeartbeats 1000000 in
/-- Splitting into kept-ends lines loses nothing: flattening gives back the
input (with the pending reversed line in front). -/
theorem splitLinesKeepGo_flatten (cur cs : List Char) :
    (splitLinesKeepGo cur cs).flatten = cur.reverse ++ cs := by
  induction cur, cs using splitLinesKeepGo.induct with
  | case1 cur h =>
    have hc : cur = [] := by simpa using h
    subst hc
    rfl
  | case2 cur h =>
    rw [show splitLinesKeepGo cur [] = if cur.isEmpty then [] else [cur.reverse] from rfl]
    rw [if_neg (by simpa using h)]
    simp
  | case3 cur rest ih =>
    rw [show splitLinesKeepGo cur ('\r' :: '\n' :: rest) =
        (cur.reverse ++ ['\r', '\n']) :: splitLinesKeepGo [] rest from rfl]
    rw [List.flatten_cons, ih]
    simp
  | case4 cur c rest hne hbreak ih =>
    rw [splitLinesKeepGo.eq_3 cur c rest hne, if_pos hbreak, List.flatten_cons, ih]
    simp
  | case5 cur c rest hne hbreak ih =>
    rw [splitLinesKeepGo.eq_3 cur c rest hne, if_neg hbreak, ih]
    simp

theorem join_pySplitLinesKeep (s : String) :
    String.join (pySplitLinesKeep s) = s := by
  obtain ⟨dat⟩ := s
  rw [String.join_eq]
  simp only [pySplitLinesKeep, List.map_map]
  have hmap : (splitLinesKeepGo [] ((⟨dat⟩ : String).data)).map (String.data ∘ String.mk) =
      splitLinesKeepGo [] dat := by
    have hid : (String.data ∘ String.mk) = id := by
      funext x
      rfl
    rw [hid, List.map_id]
  rw [hmap, splitLinesKeepGo_flatten]
  rfl

theorem join_concat (l : List String) (x : String) :
    String.join (l ++ [x]) = String.join l ++ x := by
  obtain ⟨xd⟩ := x
  rw [String.join_eq, String.join_eq]
  rw [show (String.mk ((l.map String.data).flatten) ++ (⟨xd⟩ : String)) =
      String.mk ((l.map String.data).flatten ++ xd) from rfl]
  congr 1
  simp

theorem resolveComps_append_normal (xs ys : List String)
    (h : ∀ y ∈ ys, y ≠ "" ∧ y ≠ "." ∧ y ≠ "..") :
    resolveComps (xs ++ ys) = resolveComps xs ++ ys := by
  induction ys using List.reverseRecOn with
  | nil => simp
  | append_singleton ys y ih =>
    obtain ⟨hy1, hy2, hy3⟩ := h y (by simp)
    rw [← List.append_assoc, resolveComps_append_single _ y hy1 hy2 hy3,
      ih (fun z hz => h z (by simp [hz]))]
    simp

theorem resolveComps_normal_aux (cs : List String) :
    ∀ acc, (∀ c ∈ acc, c ≠ "" ∧ c ≠ "." ∧ c ≠ "..") →
      ∀ c ∈ cs.foldl resolveStep acc, c ≠ "" ∧ c ≠ "." ∧ c ≠ ".." := by
  induction cs with
  | nil =>
    intro acc h
    simpa using h
  | cons x cs ih =>
    intro acc hacc c hc
    refine ih (resolveStep acc x) ?_ c hc
    intro z hz
    unfold resolveStep at hz
    split at hz
    · exact hacc z hz
    · split at hz
      · exact hacc z ((List.dropLast_sublist _).subset hz)
      · rcases List.mem_append.mp hz with hz1 | hz2
        · exact hacc z hz1
        · have hzx : z = x := by simpa using hz2
          subst hzx
          rename_i hA hB
          refine ⟨?_, ?_, hB⟩
          · exact fun he => hA (Or.inl he)
          · exact fun he => hA (Or.inr he)

theorem resolveComps_normal (cs : List String) :
    ∀ c ∈ resolveComps cs, c ≠ "" ∧ c ≠ "." ∧ c ≠ ".." :=
  resolveComps_normal_aux cs [] (by simp)

theorem dedupStrGo_all_mem (l : List String) :
    ∀ seen, (∀ x ∈ l, x ∈ seen) → dedupStrGo seen l = [] := by
  induction l with
  | nil =>
    intro seen _
    rfl
  | cons x xs ih =>
    intro seen h
    unfold dedupStrGo
    rw [if_pos (h x (by simp))]
    exact ih seen (fun z hz => h z (by simp [hz]))

theorem dedupStr_const (l : List String) (a : String)
    (hne : l ≠ []) (hall : ∀ x ∈ l, x = a) : dedupStr l = [a] := by
  cases l with
  | nil => exact absurd rfl hne
  | cons x xs =>
    have hx : x = a := hall x (by simp)
    subst hx
    unfold dedupStr dedupStrGo
    rw [if_neg (by simp)]
    rw [dedupStrGo_all_mem xs [x] (fun z hz => by simp [hall z (by simp [hz])])]

theorem get?_append_length (A : List String) (b : String) (t : List String) :
    (A ++ b :: t).get? A.length = some b := by
  induction A with
  | nil => rfl
  | cons a A ih => simpa using ih

theorem get?_of_prefix (k X : List String) (h : k <+: X) (i : Nat)
    (hi : i < k.length) : X.get? i = k.get? i := by
  obtain ⟨t, rfl⟩ := h
  rw [List.get?_eq_getElem?, List.get?_eq_getElem?, List.getElem?_append_left hi]

theorem strictBelow_iff (base k : List String) :
    strictBelow base k = true ↔ (base <+: k ∧ base.length < k.length) := by
  simp [strictBelow, List.isPrefixOf_iff_prefix]

theorem mem_childNamesFrom {ks : List (List String)} {base : List String} {x : String} :
    x ∈ childNamesFrom ks base ↔
      ∃ k, k ∈ ks ∧ strictBelow base k = true ∧ k.get? base.length = some x := by
  simp only [childNamesFrom, List.mem_filterMap]
  constructor
  · rintro ⟨k, hk, hf⟩
    by_cases hb : strictBelow base k = true
    · rw [if_pos hb] at hf
      exact ⟨k, hk, hb, hf⟩
    · rw [if_neg hb] at hf
      cases hf
  · rintro ⟨k, hk, hb, hg⟩
    refine ⟨k, hk, ?_⟩
    rw [if_pos hb]
    exact hg

/-- Unfolding of a safe, size-admissible `write`. -/
theorem ReadWrite.write_eq_of_safe (rw : ReadWrite) (fs : FS) (path content : String)
    (fault : Bool)
    (hsafe : isSafePath rw.projectRoot (resolvePathComps rw.projectRoot path) = true)
    (hsize : ¬ content.utf8ByteSize > rw.maxWriteBytes) :
    rw.write fs path content fault =
      (if fault then
        (fsRemove (fsSet (mkdirParents fs
            (resolveComps (resolvePathComps rw.projectRoot path).dropLast))
            (resolveComps (tempSibling (resolvePathComps rw.projectRoot path))) content)
          (resolveComps (tempSibling (resolvePathComps rw.projectRoot path))),
          false, some "Cannot write file")
      else
        (fsSet (fsRemove (fsSet (mkdirParents fs
            (resolveComps (resolvePathComps rw.projectRoot path).dropLast))
            (resolveComps (tempSibling (resolvePathComps rw.projectRoot path))) content)
            (resolveComps (tempSibling (resolvePathComps rw.projectRoot path))))
          (resolveComps (resolvePathComps rw.projectRoot path)) content,
          true, none)) := by
  unfold ReadWrite.write
  simp only [hsafe, Bool.not_true, Bool.false_eq_true, if_false]
  rw [if_neg hsize]

/-! ## Claim theorems -/

/-- Claim C1: the spec requires the orchestrator's delete dispatch to run the
path-safety check before the unlink and to fail closed on an out-of-root
path.  The code (graph.py:433-439) performs no safety check at all: with
project root `/home/user/proj` and edit path `../secret.txt`, the resolved
target fails `_is_safe_path`, yet the delete branch unlinks
`/home/user/secret.txt` — a file outside the project root — and reports
success. -/
theorem C1_delete_skips_safety_check :
    isSafePath ["home", "user", "proj"]
      (resolvePathComps ["home", "user", "proj"] "../secret.txt") = false ∧
    fsFind ⟨[(["home", "user", "secret.txt"], "top secret")], []⟩
      ["home", "user", "secret.txt"] = some "top secret" ∧
    (handleDeleteBranch ["home", "user", "proj"]
      ⟨[(["home", "user", "secret.txt"], "top secret")], []⟩ "../secret.txt").2 = true ∧
    fsFind (handleDeleteBranch ["home", "user", "proj"]
      ⟨[(["home", "user", "secret.txt"], "top secret")], []⟩ "../secret.txt").1
      ["home", "user", "secret.txt"] = none := by
  refine ⟨by decide, by decide, by decide, by decide⟩

/-- Claim C2: a path whose resolution escapes the project root makes both
`read` and `write` fail with the `Path outside project root` error, and
`write` leaves the filesystem untouched (the containment check runs before
any directory creation or temp-file write). -/
theorem C2_out_of_root_read_write (rw : ReadWrite) (fs : FS)
    (path content : String) (fault : Bool)
    (h : isSafePath rw.projectRoot (resolvePathComps rw.projectRoot path) = false) :
    rw.read fs path = (false, none, some ("Path outside project root: " ++ path)) ∧
    rw.write fs path content fault =
      (fs, false, some ("Path outside project root: " ++ path)) := by
  unfold ReadWrite.read ReadWrite.write
  simp [h]

/-- Witness for C2 at `../../etc/passwd` against root `/home/user/proj`. -/
theorem C2_out_of_root_witness :
    ReadWrite.read ⟨["home", "user", "proj"], 8388608, 2097152⟩ ⟨[], []⟩
      "../../etc/passwd" =
      (false, none, some ("Path outside project root: " ++ "../../etc/passwd")) ∧
    ReadWrite.write ⟨["home", "user", "proj"], 8388608, 2097152⟩ ⟨[], []⟩
      "../../etc/passwd" "pwned" false =
      (⟨[], []⟩, false, some ("Path outside project root: " ++ "../../etc/passwd")) :=
  C2_out_of_root_read_write ⟨["home", "user", "proj"], 8388608, 2097152⟩ ⟨[], []⟩
    "../../etc/passwd" "pwned" false (by rfl)

/-- Counterexample to claim C3: on a post-check whose command fails every
attempt, the orchestrator's loop (graph.py:450-476) invokes the sandboxed
executor three times, not exactly once. -/
theorem C3_retries_counterexample :
    postCheckRunCount (fun _ => false) = 3 ∧ ¬ postCheckRunCount (fun _ => false) = 1 := by
  refine ⟨rfl, by simp [postCheckRunCount, postCheckRunCount.go]⟩

/-- Claim C3 as amended: each post-check is run through the executor at
least once and at most three times — once if the first run succeeds, twice
if only the second does, three times otherwise (an auto-fix attempt happens
between failures); a success is never retried. -/
theorem C3_post_check_attempts (results : Nat → Bool) :
    postCheckRunCount results =
      (if results 0 then 1 else if results 1 then 2 else 3) := by
  by_cases h0 : results 0 <;> by_cases h1 : results 1 <;>
    simp [postCheckRunCount, postCheckRunCount.go, h0, h1]

set_option maxHeartbeats 1000000 in
/-- Counterexample to claim C4: on the 2-line content `a\nb\n`, a parseable
hunk addressing source lines 10..10 — far outside the content — does not
produce a `PatchError`: Python's clamping slice assignment splices the added
line at the end and `apply_patch` reports success. -/
theorem C4_out_of_bounds_counterexample :
    (pySplitLinesKeep "a\nb\n").length = 2 ∧
    apply_patch "a\nb\n" "--- a/f\n+++ b/f\n@@ -10,1 +10,1 @@\n-x\n+y\n" =
      (true, some "a\nb\ny\n", none) := by
  exact ⟨by rfl, by rfl⟩

set_option maxHeartbeats 1000000 in
/-- Claim C4 as amended: a hunk whose source range lies beyond the content's
bounds is not rejected — list-slice clamping applies it at the clamped
position, so against any content of at most 9 lines the patch
`@@ -10,1 +10,1 @@ / -x / +y` succeeds and appends `y\n` (syntax errors,
multi-file and empty patches do surface as errors). -/
theorem C4_out_of_range_hunk_applies (content : String)
    (h : (pySplitLinesKeep content).length ≤ 9) :
    apply_patch content "--- a/f\n+++ b/f\n@@ -10,1 +10,1 @@\n-x\n+y\n" =
      (true, some (content ++ "y\n"), none) := by
  have hp : parsePatchSet "--- a/f\n+++ b/f\n@@ -10,1 +10,1 @@\n-x\n+y\n" =
      Except.ok [[⟨10, 1, 10, 1,
        [(DiffLineType.removed, "x\n"), (DiffLineType.added, "y\n")]⟩]] := by rfl
  have happ : apply_patch content "--- a/f\n+++ b/f\n@@ -10,1 +10,1 @@\n-x\n+y\n" =
      (true, some (String.join (applyHunks (pySplitLinesKeep content)
        [⟨10, 1, 10, 1,
          [(DiffLineType.removed, "x\n"), (DiffLineType.added, "y\n")]⟩])), none) := by
    unfold apply_patch
    rw [hp]
  have happly : applyHunks (pySplitLinesKeep content)
      [⟨10, 1, 10, 1, [(DiffLineType.removed, "x\n"), (DiffLineType.added, "y\n")]⟩] =
      pySplitLinesKeep content ++ ["y\n"] := by
    unfold applyHunks
    simp only [List.reverse_cons, List.reverse_nil, List.nil_append,
      List.foldl_cons, List.foldl_nil, List.filterMap]
    have hs : pySliceIdx (pySplitLinesKeep content).length (((10 : Nat) : Int) - 1) =
        (pySplitLinesKeep content).length := by
      unfold pySliceIdx
      rw [if_neg (by norm_num)]
      have : (((10 : Nat) : Int) - 1).toNat = 9 := by decide
      rw [this]
      exact Nat.min_eq_right h
    have he : pySliceIdx (pySplitLinesKeep content).length
        ((((10 : Nat) : Int) - 1) + ((1 : Nat) : Int)) =
        (pySplitLinesKeep content).length := by
      unfold pySliceIdx
      rw [if_neg (by norm_num)]
      have : ((((10 : Nat) : Int) - 1) + ((1 : Nat) : Int)).toNat = 10 := by decide
      rw [this]
      exact Nat.min_eq_right (Nat.le_trans h (by norm_num))
    unfold pySliceAssign
    rw [hs, he]
    simp [List.take_length, List.drop_length]
  rw [happ, happly, join_concat, join_pySplitLinesKeep]

set_option maxHeartbeats 1000000 in
/-- Witness for amended C4 at the concrete 2-line content. -/
theorem C4_out_of_range_witness :
    apply_patch "a\nb\n" "--- a/f\n+++ b/f\n@@ -10,1 +10,1 @@\n-x\n+y\n" =
      (true, some ("a\nb\n" ++ "y\n"), none) :=
  C4_out_of_range_hunk_applies "a\nb\n" (by decide)

set_option maxHeartbeats 1000000 in
/-- Counterexample to claim C7: the round trip already fails on
`O = "foo\n"`, `M = "bar\n"` — applying the generated diff back onto `O`
does not reproduce `M`. -/
theorem C7_roundtrip_counterexample :
    ¬ apply_patch "foo\n" (create_patch "foo\n" "bar\n" "file") =
      (true, some "bar\n", none) := by
  intro hcon
  rw [show apply_patch "foo\n" (create_patch "foo\n" "bar\n" "file") =
      (false, none, some "Empty patch") from rfl] at hcon
  simp at hcon

/-- `splitlines(keepends=True)` of a single terminated line whose body has
no line-break characters. -/
theorem splitLinesKeepGo_no_break (l : List Char) : ∀ (cur rest : List Char),
    (∀ c ∈ l, lineBreakChar c = false) →
    splitLinesKeepGo cur (l ++ '\n' :: rest) =
      (cur.reverse ++ (l ++ ['\n'])) :: splitLinesKeepGo [] rest := by
  induction l with
  | nil =>
    intro cur rest _
    rw [List.nil_append,
      splitLinesKeepGo.eq_3 cur '\n' rest
        (by intro r h _; exact absurd h (by decide)),
      if_pos (by decide)]
    simp
  | cons c l ih =>
    intro cur rest h
    have hc : lineBreakChar c = false := h c (List.mem_cons_self c l)
    have hcr : c ≠ '\r' := fun he => by
      rw [he] at hc
      exact absurd hc (by decide)
    rw [List.cons_append,
      splitLinesKeepGo.eq_3 cur c (l ++ '\n' :: rest)
        (by intro r hr _; exact hcr hr),
      if_neg (by simp [hc]),
      ih (c :: cur) rest (fun c' hc' => h c' (List.mem_cons_of_mem _ hc'))]
    simp

theorem pySplitLinesKeep_single (x : String)
    (hx : ∀ c ∈ x.data, lineBreakChar c = false) :
    pySplitLinesKeep (x ++ "\n") = [x ++ "\n"] := by
  unfold pySplitLinesKeep
  rw [show (x ++ "\n").data = x.data ++ '\n' :: [] from String.data_append x "\n",
    splitLinesKeepGo_no_break x.data [] [] hx]
  rfl

/-- `StringIO` line iteration of a chunk with no interior newline. -/
theorem splitAfterNlGo_no_nl (l : List Char) : ∀ (cur rest : List Char),
    (∀ c ∈ l, ¬ c = '\n') →
    splitAfterNlGo cur (l ++ '\n' :: rest) =
      (cur.reverse ++ (l ++ ['\n'])) :: splitAfterNlGo [] rest := by
  induction l with
  | nil =>
    intro cur rest _
    simp [splitAfterNlGo]
  | cons c l ih =>
    intro cur rest h
    have hc : ¬ c = '\n' := h c (List.mem_cons_self c l)
    rw [List.cons_append,
      show splitAfterNlGo cur (c :: (l ++ '\n' :: rest)) =
        splitAfterNlGo (c :: cur) (l ++ '\n' :: rest) from by simp [splitAfterNlGo, hc],
      ih (c :: cur) rest (fun c' hc' => h c' (List.mem_cons_of_mem _ hc'))]
    simp

theorem splitAfterNl_two (l1 l2 : List Char)
    (h1 : ∀ c ∈ l1, ¬ c = '\n') (h2 : ∀ c ∈ l2, ¬ c = '\n') :
    splitAfterNlGo [] (l1 ++ '\n' :: (l2 ++ '\n' :: [])) =
      [l1 ++ ['\n'], l2 ++ ['\n']] := by
  rw [splitAfterNlGo_no_nl l1 [] _ h1, splitAfterNlGo_no_nl l2 [] [] h2]
  rfl

/-- A line that is not `++ `-prefixed stays free of the `+++ ` marker after
its newline terminator is appended behind a `+`. -/
theorem isPrefixOf_pps_append_nl (l : List Char)
    (h : List.isPrefixOf ['+', '+', ' '] l = false) :
    List.isPrefixOf ['+', '+', ' '] (l ++ ['\n']) = false := by
  match l with
  | [] => decide
  | [a] =>
    have hq : ('+' == '\n') = false := by decide
    simp [List.isPrefixOf, hq]
  | [a, b] =>
    have hq : (' ' == '\n') = false := by decide
    simp [List.isPrefixOf, hq]
  | a :: b :: c :: t =>
    simp only [List.cons_append, List.isPrefixOf] at h ⊢
    simpa using h

/-- `find_longest_match` over the whole range of equal one-line files finds
the full one-line match. -/
theorem findLongestMatch_single_same (u : String) :
    findLongestMatch [u] [u] [(u, [0])] 0 1 0 1 = (0, 0, 1) := by
  have hlook : lookupIdx [(u, [0])] u = [0] := by
    simp [lookupIdx, List.find?]
  have hpass : flmPass [u] [(u, [0])] 0 1 0 1 = (0, 0, 1) := by
    unfold flmPass
    rw [show List.range' 0 (1 - 0) = [0] from rfl]
    simp only [List.foldl_cons, List.foldl_nil]
    rw [show List.getD [u] 0 "\x00" = u from rfl, hlook]
    rfl
  unfold findLongestMatch
  rw [hpass]
  rfl

/-- `find_longest_match` over the whole range of distinct one-line files
finds nothing. -/
theorem findLongestMatch_single_ne (u v : String) (h : u ≠ v) :
    findLongestMatch [u] [v] [(v, [0])] 0 1 0 1 = (0, 0, 0) := by
  have hb1 : (v == u) = false := beq_eq_false_iff_ne.mpr (Ne.symm h)
  have hb2 : (u == v) = false := beq_eq_false_iff_ne.mpr h
  have hlook : lookupIdx [(v, [0])] u = [] := by
    simp [lookupIdx, List.find?, hb1]
  have hpass : flmPass [u] [(v, [0])] 0 1 0 1 = (0, 0, 0) := by
    unfold flmPass
    rw [show List.range' 0 (1 - 0) = [0] from rfl]
    simp only [List.foldl_cons, List.foldl_nil]
    rw [show List.getD [u] 0 "\x00" = u from rfl, hlook]
    rfl
  unfold findLongestMatch
  rw [hpass]
  rw [show (let st := ((0, 0, 0) : Nat × Nat × Nat);
      let st2 := extendLeft [u] [v] 0 0 (st.1 - 0) st;
      extendRight [u] [v] 1 1 (1 - (st2.1 + st2.2.2)) st2) =
      extendRight [u] [v] 1 1 1 (0, 0, 0) from rfl]
  rw [show extendRight [u] [v] 1 1 1 (0, 0, 0) =
      (if 0 + 0 < 1 && 0 + 0 < 1 &&
          (List.getD [u] (0 + 0) "\x00" == List.getD [v] (0 + 0) "\x01") then
        extendRight [u] [v] 1 1 0 (0, 0, 0 + 1)
      else (0, 0, 0)) from rfl]
  rw [show List.getD [u] (0 + 0) "\x00" = u from rfl,
    show List.getD [v] (0 + 0) "\x01" = v from rfl, hb2]
  simp

/-- The matcher pipeline on equal one-line files: a single `equal` opcode. -/
theorem getOpcodes_single_same (u : String) :
    getOpcodes [u] [u] = [⟨.equal, 0, 1, 0, 1⟩] := by
  have hraw : matchingBlocksGo [u] [u] [(u, [0])] (7 + 1) [(0, 1, 0, 1)] [] =
      [(0, 0, 1)] := by
    rw [show matchingBlocksGo [u] [u] [(u, [0])] (7 + 1) [(0, 1, 0, 1)] [] =
        (let m := findLongestMatch [u] [u] [(u, [0])] 0 1 0 1
         let i := m.1
         let j := m.2.1
         let k := m.2.2
         if k ≠ 0 then
           let q1 := if 0 < i && 0 < j then (0, i, 0, j) :: [] else []
           let q2 := if i + k < 1 && j + k < 1 then (i + k, 1, j + k, 1) :: q1 else q1
           matchingBlocksGo [u] [u] [(u, [0])] 7 q2 (m :: [])
         else matchingBlocksGo [u] [u] [(u, [0])] 7 [] []) from rfl,
      findLongestMatch_single_same u]
    rfl
  have hgmb : getMatchingBlocks [u] [u] = [(0, 0, 1), (1, 1, 0)] := by
    unfold getMatchingBlocks
    rw [show b2jBuild [u] = [(u, [0])] from rfl,
      show List.length [u] = 1 from rfl,
      show 2 * (1 + 1) + 4 = 7 + 1 from rfl]
    show mergeAdjacentGo 0 0 0 []
      (sortTriples (matchingBlocksGo [u] [u] [(u, [0])] (7 + 1) [(0, 1, 0, 1)] [])) ++
        [(1, 1, 0)] = _
    rw [hraw]
    rfl
  unfold getOpcodes
  rw [hgmb]
  rfl

/-- The matcher pipeline on distinct one-line files: a single `replace`. -/
theorem getOpcodes_single_ne (u v : String) (h : u ≠ v) :
    getOpcodes [u] [v] = [⟨.replace, 0, 1, 0, 1⟩] := by
  have hraw : matchingBlocksGo [u] [v] [(v, [0])] (7 + 1) [(0, 1, 0, 1)] [] = [] := by
    rw [show matchingBlocksGo [u] [v] [(v, [0])] (7 + 1) [(0, 1, 0, 1)] [] =
        (let m := findLongestMatch [u] [v] [(v, [0])] 0 1 0 1
         let i := m.1
         let j := m.2.1
         let k := m.2.2
         if k ≠ 0 then
           let q1 := if 0 < i && 0 < j then (0, i, 0, j) :: [] else []
           let q2 := if i + k < 1 && j + k < 1 then (i + k, 1, j + k, 1) :: q1 else q1
           matchingBlocksGo [u] [v] [(v, [0])] 7 q2 (m :: [])
         else matchingBlocksGo [u] [v] [(v, [0])] 7 [] []) from rfl,
      findLongestMatch_single_ne u v h]
    rfl
  have hgmb : getMatchingBlocks [u] [v] = [(1, 1, 0)] := by
    unfold getMatchingBlocks
    rw [show b2jBuild [v] = [(v, [0])] from rfl,
      show List.length [u] = 1 from rfl, show List.length [v] = 1 from rfl,
      show 2 * (1 + 1) + 4 = 7 + 1 from rfl]
    show mergeAdjacentGo 0 0 0 []
      (sortTriples (matchingBlocksGo [u] [v] [(v, [0])] (7 + 1) [(0, 1, 0, 1)] [])) ++
        [(1, 1, 0)] = _
    rw [hraw]
    rfl
  unfold getOpcodes
  rw [hgmb]
  rfl

theorem unifiedDiffLines_single_same (u f t : String) :
    unifiedDiffLines [u] [u] f t = [] := by
  unfold unifiedDiffLines getGroupedOpcodes
  rw [getOpcodes_single_same u]
  rfl

theorem unifiedDiffLines_single_ne (u v f t : String) (h : u ≠ v) :
    unifiedDiffLines [u] [v] f t =
      ["--- " ++ f, "+++ " ++ t, "@@ -1 +1 @@", "-" ++ u, "+" ++ v] := by
  unfold unifiedDiffLines getGroupedOpcodes
  rw [getOpcodes_single_ne u v h]
  rfl

theorem create_patch_single_same (u : String)
    (hu : ∀ c ∈ u.data, lineBreakChar c = false) :
    create_patch (u ++ "\n") (u ++ "\n") "file" = "" := by
  unfold create_patch
  rw [pySplitLinesKeep_single u hu, unifiedDiffLines_single_same]
  rfl

set_option maxHeartbeats 1000000 in
/-- Claim C7 as amended: the round trip never reproduces the modified text
on single-line inputs.  `create_patch` emits its `---`/`+++`/`@@` header
lines with `lineterm=""` and concatenates with `"".join`, so for
`O = x + "\n"`, `M = y + "\n"` (no line-break characters inside `x`, `y`;
`y` not beginning `++ `) the headers and the removed line mash into one
source-header line, `unidiff` parses zero files — for `x = y` the diff is
the empty string — and `apply_patch` reports `Empty patch` instead of
returning `M`. -/
theorem C7_roundtrip_single_line_fails (x y : String)
    (hx : ∀ c ∈ x.data, lineBreakChar c = false)
    (hy : ∀ c ∈ y.data, lineBreakChar c = false)
    (hy2 : pyStartsWith y "++ " = false) :
    apply_patch (x ++ "\n") (create_patch (x ++ "\n") (y ++ "\n") "file") =
      (false, none, some "Empty patch") := by
  obtain ⟨xs⟩ := x
  obtain ⟨ys⟩ := y
  by_cases hxy : (⟨xs⟩ : String) = ⟨ys⟩
  · rw [hxy, create_patch_single_same ⟨ys⟩ hy]
    rfl
  · have hne' : (⟨xs⟩ : String) ++ "\n" ≠ (⟨ys⟩ : String) ++ "\n" := by
      intro he
      apply hxy
      have hd := congrArg String.data he
      rw [String.data_append, String.data_append] at hd
      have hd2 := congrArg List.dropLast hd
      rw [show ("\n" : String).data = ['\n'] from rfl, List.dropLast_concat,
        List.dropLast_concat] at hd2
      exact congrArg String.mk hd2
    have hxnl : ∀ c ∈ xs, ¬ c = '\n' := by
      intro c hc he
      have := hx c hc
      rw [he] at this
      exact absurd this (by decide)
    have hynl : ∀ c ∈ ys, ¬ c = '\n' := by
      intro c hc he
      have := hy c hc
      rw [he] at this
      exact absurd this (by decide)
    have hS : create_patch ((⟨xs⟩ : String) ++ "\n") ((⟨ys⟩ : String) ++ "\n") "file" =
        String.mk (("--- a/file+++ b/file@@ -1 +1 @@-".data ++ xs) ++
          '\n' :: (('+' :: ys) ++ '\n' :: [])) := by
      unfold create_patch
      rw [pySplitLinesKeep_single _ hx, pySplitLinesKeep_single _ hy,
        unifiedDiffLines_single_ne _ _ _ _ hne']
      rw [show String.join ["--- " ++ ("a/" ++ "file"), "+++ " ++ ("b/" ++ "file"),
          "@@ -1 +1 @@", "-" ++ ((⟨xs⟩ : String) ++ "\n"), "+" ++ ((⟨ys⟩ : String) ++ "\n")] =
          String.mk (("--- a/file+++ b/file@@ -1 +1 @@-".data ++ (xs ++ ['\n'])) ++
            ('+' :: (ys ++ ['\n']))) from rfl]
      simp [List.append_assoc]
    have hsplit : splitKeepNl
        (create_patch ((⟨xs⟩ : String) ++ "\n") ((⟨ys⟩ : String) ++ "\n") "file") =
        [String.mk (("--- a/file+++ b/file@@ -1 +1 @@-".data ++ xs) ++ ['\n']),
         String.mk (('+' :: ys) ++ ['\n'])] := by
      rw [hS]
      unfold splitKeepNl
      rw [show (String.mk (("--- a/file+++ b/file@@ -1 +1 @@-".data ++ xs) ++
          '\n' :: (('+' :: ys) ++ '\n' :: []))).data =
          ("--- a/file+++ b/file@@ -1 +1 @@-".data ++ xs) ++
            '\n' :: (('+' :: ys) ++ '\n' :: []) from rfl,
        splitAfterNl_two _ _
          (by
            intro c hc
            rcases List.mem_append.mp hc with h | h
            · exact (by decide :
                ∀ c ∈ ("--- a/file+++ b/file@@ -1 +1 @@-" : String).data, ¬ c = '\n') c h
            · exact hxnl c h)
          (by
            intro c hc
            rcases List.mem_cons.mp hc with h | h
            · rw [h]
              decide
            · exact hynl c h)]
      rfl
    have hm1 : matchesFilenameHeader "--- "
        (String.mk (("--- a/file+++ b/file@@ -1 +1 @@-".data ++ xs) ++ ['\n'])) = true := by
      have hstart : pyStartsWith
          (String.mk (("--- a/file+++ b/file@@ -1 +1 @@-".data ++ xs) ++ ['\n'])) "--- " =
          true := by
        rw [show ("--- a/file+++ b/file@@ -1 +1 @@-" : String).data =
          '-' :: '-' :: '-' :: ' ' :: ("a/file+++ b/file@@ -1 +1 @@-" : String).data from rfl]
        simp [pyStartsWith, List.isPrefixOf, List.cons_append]
      have hdrop : ((String.mk (("--- a/file+++ b/file@@ -1 +1 @@-".data ++ xs) ++
          ['\n'])).drop ("--- " : String).length).data =
          'a' :: ((("/file+++ b/file@@ -1 +1 @@-" : String).data ++ xs) ++ ['\n']) := by
        rw [String.data_drop,
          show (String.mk (("--- a/file+++ b/file@@ -1 +1 @@-".data ++ xs) ++ ['\n'])).data =
            ("--- a/file+++ b/file@@ -1 +1 @@-".data ++ xs) ++ ['\n'] from rfl,
          show ("--- a/file+++ b/file@@ -1 +1 @@-" : String).data =
            '-' :: '-' :: '-' :: ' ' :: 'a' ::
              ("/file+++ b/file@@ -1 +1 @@-" : String).data from rfl,
          show ("--- " : String).length = 4 from rfl]
        simp [List.cons_append]
      unfold matchesFilenameHeader
      rw [hstart, hdrop]
      rfl
    have hm2a : matchesFilenameHeader "--- "
        (String.mk (('+' :: ys) ++ ['\n'])) = false := by
      have hq : ('-' == '+') = false := by decide
      simp [matchesFilenameHeader, pyStartsWith, List.isPrefixOf, List.cons_append, hq]
    have hkey : List.isPrefixOf ['+', '+', ' '] (ys ++ ['\n']) = false :=
      isPrefixOf_pps_append_nl ys (by
        have h0 := hy2
        rw [show pyStartsWith (⟨ys⟩ : String) "++ " =
          List.isPrefixOf ['+', '+', ' '] ys from rfl] at h0
        exact h0)
    have hm2b : matchesFilenameHeader "+++ "
        (String.mk (('+' :: ys) ++ ['\n'])) = false := by
      simp [matchesFilenameHeader, pyStartsWith, List.isPrefixOf, List.cons_append, hkey]
    have hph2 : parseHunkHeader (String.mk (('+' :: ys) ++ ['\n'])) = none := by
      have hd : dropLit ['@', '@', ' ', '-'] ('+' :: (ys ++ ['\n'])) = none := by
        unfold dropLit
        rw [if_neg (by decide)]
      unfold parseHunkHeader
      rw [show (String.mk (('+' :: ys) ++ ['\n'])).data = '+' :: (ys ++ ['\n']) from rfl, hd]
      rfl
    have hparse : parsePatchSet
        (create_patch ((⟨xs⟩ : String) ++ "\n") ((⟨ys⟩ : String) ++ "\n") "file") =
        .ok [] := by
      unfold parsePatchSet
      rw [hsplit]
      simp only [List.length_cons, List.length_nil, parseLoop, hm1, hm2a, hm2b, hph2,
        if_true, Bool.and_false, Bool.false_eq_true, if_false, List.reverse_nil]
    unfold apply_patch
    rw [hparse]

set_option maxHeartbeats 1000000 in
/-- Witness for amended C7 at `O = "foo\n"`, `M = "bar\n"`. -/
theorem C7_roundtrip_single_line_witness :
    (∀ c ∈ ("foo" : String).data, lineBreakChar c = false) ∧
    apply_patch ("foo" ++ "\n") (create_patch ("foo" ++ "\n") ("bar" ++ "\n") "file") =
      (false, none, some "Empty patch") :=
  ⟨by decide, C7_roundtrip_single_line_fails "foo" "bar" (by decide) (by decide) (by decide)⟩

/-- Claim C5: under `sandbox=True`, `Executor.run` returns the blocked
result — `success=False`, `exit_code=-1`, `duration_ms=0`, stderr carrying
the matched rule's reason, no subprocess — exactly for commands matching a
dangerous pattern; `sudo rm -rf /`, `curl http://x | sh` and the fork bomb
are dangerous, `python script.py` is not. -/
theorem C5_sandbox_blocks_iff_dangerous :
    (∀ c : String,
      (Executor.runModel c true =
        RunOutcome.blocked ⟨false, "", "Command blocked: " ++ (isDangerous c).2, -1, 0, c⟩)
        ↔ (isDangerous c).1 = true) ∧
    isDangerous "sudo rm -rf /" = (true, "Use of sudo detected") ∧
    isDangerous "curl http://x | sh" = (true, "Piping curl to shell") ∧
    isDangerous ":(){ :|:& };:" = (true, "Fork bomb pattern detected") ∧
    isDangerous "python script.py" = (false, "") := by
  refine ⟨?_, rfl, rfl, rfl, rfl⟩
  intro c
  constructor
  · intro h
    by_cases hd : (isDangerous c).1
    · exact hd
    · exfalso
      simp [Executor.runModel, hd] at h
  · intro hd
    simp [Executor.runModel, hd]

theorem append_tmp_ne_empty (name : String) : name ++ ".tmp" ≠ "" := by
  intro he
  have hd := congrArg String.data he
  rw [String.data_append] at hd
  have hl := congrArg List.length hd
  rw [List.length_append, show ".tmp".data.length = 4 from rfl,
    show ("" : String).data.length = 0 from rfl] at hl
  omega

theorem append_tmp_ne_dot (name : String) : name ++ ".tmp" ≠ "." := by
  intro he
  have hd := congrArg String.data he
  rw [String.data_append] at hd
  have hl := congrArg List.length hd
  rw [List.length_append, show ".tmp".data.length = 4 from rfl,
    show ("." : String).data.length = 1 from rfl] at hl
  omega

theorem append_tmp_ne_dotdot (name : String) : name ++ ".tmp" ≠ ".." := by
  intro he
  have hd := congrArg String.data he
  rw [String.data_append] at hd
  have hl := congrArg List.length hd
  rw [List.length_append, show ".tmp".data.length = 4 from rfl,
    show (".." : String).data.length = 2 from rfl] at hl
  omega

theorem append_tmp_ne_self (name : String) : name ++ ".tmp" ≠ name := by
  intro he
  have hd := congrArg String.data he
  rw [String.data_append] at hd
  have hl := congrArg List.length hd
  rw [List.length_append, show ".tmp".data.length = 4 from rfl] at hl
  omega

/-- Claim C6: a failure injected between the temp-file write and the rename
leaves the pre-existing target byte-for-byte unchanged (the cleanup only
unlinks the temp sibling); a successful write leaves the target holding
exactly the supplied content.  The target is any safe, size-admissible path
whose final component is an ordinary name. -/
theorem C6_atomic_write (rw : ReadWrite) (fs : FS) (path content : String)
    (dir : List String) (name : String)
    (hfp : resolvePathComps rw.projectRoot path = dir ++ [name])
    (hn1 : name ≠ "") (hn2 : name ≠ ".") (hn3 : name ≠ "..")
    (hsafe : isSafePath rw.projectRoot (resolvePathComps rw.projectRoot path) = true)
    (hsize : ¬ content.utf8ByteSize > rw.maxWriteBytes) :
    ((rw.write fs path content true).2.1 = false ∧
      fsFind (rw.write fs path content true).1
        (resolveComps (resolvePathComps rw.projectRoot path)) =
        fsFind fs (resolveComps (resolvePathComps rw.projectRoot path))) ∧
    ((rw.write fs path content false).2.1 = true ∧
      fsFind (rw.write fs path content false).1
        (resolveComps (resolvePathComps rw.projectRoot path)) = some content) := by
  have htempS : tempSibling (resolvePathComps rw.projectRoot path) =
      dir ++ [name ++ ".tmp"] := by
    rw [hfp]
    unfold tempSibling
    rw [List.dropLast_concat, List.getLast?_concat]
    rfl
  have hK : resolveComps (resolvePathComps rw.projectRoot path) =
      resolveComps dir ++ [name] := by
    rw [hfp]
    exact resolveComps_append_single dir name hn1 hn2 hn3
  have hT : resolveComps (tempSibling (resolvePathComps rw.projectRoot path)) =
      resolveComps dir ++ [name ++ ".tmp"] := by
    rw [htempS]
    exact resolveComps_append_single dir (name ++ ".tmp")
      (append_tmp_ne_empty name) (append_tmp_ne_dot name) (append_tmp_ne_dotdot name)
  have hKT : resolveComps (resolvePathComps rw.projectRoot path) ≠
      resolveComps (tempSibling (resolvePathComps rw.projectRoot path)) := by
    rw [hK, hT]
    intro he
    have h2 : [name] = [name ++ ".tmp"] := List.append_cancel_left he
    have h3 : name = name ++ ".tmp" := by simpa using h2
    exact append_tmp_ne_self name h3.symm
  have hw : ∀ fault : Bool, rw.write fs path content fault =
      (if fault then
        (fsRemove (fsSet (mkdirParents fs
            (resolveComps (resolvePathComps rw.projectRoot path).dropLast))
            (resolveComps (tempSibling (resolvePathComps rw.projectRoot path))) content)
          (resolveComps (tempSibling (resolvePathComps rw.projectRoot path))),
          false, some "Cannot write file")
      else
        (fsSet (fsRemove (fsSet (mkdirParents fs
            (resolveComps (resolvePathComps rw.projectRoot path).dropLast))
            (resolveComps (tempSibling (resolvePathComps rw.projectRoot path))) content)
            (resolveComps (tempSibling (resolvePathComps rw.projectRoot path))))
          (resolveComps (resolvePathComps rw.projectRoot path)) content,
          true, none)) := by
    intro fault
    unfold ReadWrite.write
    simp only [hsafe, Bool.not_true, Bool.false_eq_true, if_false]
    rw [if_neg hsize]
  refine ⟨⟨?_, ?_⟩, ⟨?_, ?_⟩⟩
  · rw [hw true]
    rfl
  · rw [hw true, if_pos rfl]
    rw [fsFind_fsRemove_ne _ _ _ hKT, fsFind_fsSet_ne _ _ _ _ hKT,
      fsFind_mkdirParents]
  · rw [hw false]
    rfl
  · rw [hw false, if_neg (by simp)]
    rw [fsFind_fsSet_self]

/-- Witness for C6: project root `/proj`, existing file `main.py` holding
`old`, written with `new`. -/
theorem C6_atomic_write_witness :
    ((ReadWrite.write ⟨["proj"], 8388608, 2097152⟩
        ⟨[(["proj", "main.py"], "old")], []⟩ "main.py" "new" true).2.1 = false ∧
      fsFind (ReadWrite.write ⟨["proj"], 8388608, 2097152⟩
        ⟨[(["proj", "main.py"], "old")], []⟩ "main.py" "new" true).1
        (resolveComps (resolvePathComps ["proj"] "main.py")) =
        fsFind ⟨[(["proj", "main.py"], "old")], []⟩
          (resolveComps (resolvePathComps ["proj"] "main.py"))) ∧
    ((ReadWrite.write ⟨["proj"], 8388608, 2097152⟩
        ⟨[(["proj", "main.py"], "old")], []⟩ "main.py" "new" false).2.1 = true ∧
      fsFind (ReadWrite.write ⟨["proj"], 8388608, 2097152⟩
        ⟨[(["proj", "main.py"], "old")], []⟩ "main.py" "new" false).1
        (resolveComps (resolvePathComps ["proj"] "main.py")) = some "new") :=
  C6_atomic_write ⟨["proj"], 8388608, 2097152⟩ ⟨[(["proj", "main.py"], "old")], []⟩
    "main.py" "new" ["proj"] "main.py" (by rfl) (by decide) (by decide) (by decide)
    (by rfl) (by decide)

theorem getLast?_append_ne (l1 l2 : List String) (h : l2 ≠ []) :
    (l1 ++ l2).getLast? = l2.getLast? := by
  rw [List.getLast?_append]
  cases hg : l2.getLast? with
  | none => exact absurd (by simpa [List.getLast?_eq_none_iff] using hg) h
  | some a => rfl

set_option maxHeartbeats 1600000 in
/-- Claim C8: snapshot, overwrite, restore is a rollback.  With a project
file at `path` holding `c0`, `create_snapshot([path])` succeeds returning
the fresh id; overwriting the file with `c1` and then
`restore_snapshot(id)` succeeds and the file holds exactly `c0` again; and
`list_snapshots()` then returns the new id first.  `K`/`SD`/`SR`/`rootR`/
`rel` abbreviate the resolved target key, snapshot directory, snapshots
root, resolved project root and the target's root-relative path; the
freshness hypotheses say nothing lived under `.pitcrew/snapshots` before. -/
theorem C8_snapshot_restore_roundtrip
    (rw : ReadWrite) (fs : FS) (path c0 c1 snapId : String)
    (dir : List String) (name : String)
    (K SD SR rootR rel : List String)
    (hrootR : rootR = resolveComps rw.projectRoot)
    (hKdef : K = resolveComps (resolvePathComps rw.projectRoot path))
    (hSDdef : SD = snapshotDir rw.projectRoot snapId)
    (hSRdef : SR = snapshotsRoot rw.projectRoot)
    (hreldef : rel = K.drop rootR.length)
    (hfp : resolvePathComps rw.projectRoot path = dir ++ [name])
    (hn1 : name ≠ "") (hn2 : name ≠ ".") (hn3 : name ≠ "..")
    (hsafe : isSafePath rw.projectRoot (resolvePathComps rw.projectRoot path) = true)
    (hfile : fsFind fs K = some c0)
    (hKroot : K ≠ rootR)
    (hsize : ¬ c1.utf8ByteSize > rw.maxWriteBytes)
    (hid1 : snapId ≠ "") (hid2 : snapId ≠ ".") (hid3 : snapId ≠ "..")
    (hfreshF : ∀ e ∈ fs.files, ¬ SR <+: e.1)
    (hfreshD : ∀ d ∈ fs.dirs, ¬ SR <+: d) :
    (rw.createSnapshot fs [path] snapId).2.1 = true ∧
    (rw.createSnapshot fs [path] snapId).2.2.1 = some snapId ∧
    (rw.write (rw.createSnapshot fs [path] snapId).1 path c1 false).2.1 = true ∧
    (rw.restoreSnapshot
      (rw.write (rw.createSnapshot fs [path] snapId).1 path c1 false).1 snapId).2.1 = true ∧
    fsFind (rw.restoreSnapshot
      (rw.write (rw.createSnapshot fs [path] snapId).1 path c1 false).1 snapId).1 K =
      some c0 ∧
    rw.listSnapshots (rw.restoreSnapshot
      (rw.write (rw.createSnapshot fs [path] snapId).1 path c1 false).1 snapId).1 =
      [snapId] := by
  -- ## structural facts about the paths involved
  have hSR2 : SR = rootR ++ [".pitcrew", "snapshots"] := by
    rw [hSRdef, hrootR]
    unfold snapshotsRoot
    rw [show ([".pitcrew", "snapshots"] : List String) = [".pitcrew"] ++ ["snapshots"] from rfl,
      ← List.append_assoc, resolveComps_append_single _ "snapshots" (by decide) (by decide) (by decide),
      resolveComps_append_single _ ".pitcrew" (by decide) (by decide) (by decide)]
    simp
  have hSD2 : SD = SR ++ [snapId] := by
    rw [hSDdef, hSR2, hrootR]
    unfold snapshotDir
    rw [show ([".pitcrew", "snapshots", snapId] : List String) =
        [".pitcrew", "snapshots"] ++ [snapId] from rfl,
      ← List.append_assoc, resolveComps_append_single _ snapId hid1 hid2 hid3,
      show ([".pitcrew", "snapshots"] : List String) = [".pitcrew"] ++ ["snapshots"] from rfl,
      ← List.append_assoc, resolveComps_append_single _ "snapshots" (by decide) (by decide) (by decide),
      resolveComps_append_single _ ".pitcrew" (by decide) (by decide) (by decide)]
    simp
  have hK2 : K = resolveComps dir ++ [name] := by
    rw [hKdef, hfp]
    exact resolveComps_append_single dir name hn1 hn2 hn3
  have hKnormal : ∀ c ∈ K, c ≠ "" ∧ c ≠ "." ∧ c ≠ ".." := by
    rw [hKdef]
    exact resolveComps_normal _
  have hPrefixRootK : rootR <+: K := by
    have hs := hsafe
    unfold isSafePath at hs
    rw [List.isPrefixOf_iff_prefix] at hs
    rw [hrootR, hKdef]
    exact hs
  have hKrel : K = rootR ++ rel := by
    obtain ⟨t, ht⟩ := hPrefixRootK
    rw [hreldef, ← ht, List.drop_left]
  have hrelne : rel ≠ [] := by
    intro h0
    apply hKroot
    rw [hKrel, h0]
    simp
  have hrelNormal : ∀ y ∈ rel, y ≠ "" ∧ y ≠ "." ∧ y ≠ ".." := by
    intro y hy
    apply hKnormal
    rw [hKrel]
    exact List.mem_append_right _ hy
  have hSRK : ¬ SR <+: K := by
    unfold fsFind at hfile
    cases hf : fs.files.find? (fun e => e.1 == K) with
    | none =>
      rw [hf] at hfile
      cases hfile
    | some e =>
      have hmem := List.mem_of_find?_eq_some hf
      have hpe : e.1 = K := by simpa using List.find?_some hf
      rw [← hpe]
      exact hfreshF e hmem
  have hSRSD : SR <+: SD := by
    rw [hSD2]
    exact List.prefix_append _ _
  have hSDrelget : (SD ++ rel).get? SR.length = some snapId := by
    rw [hSD2, List.append_assoc]
    exact get?_append_length SR snapId rel
  -- temp sibling facts
  have htempS : tempSibling (resolvePathComps rw.projectRoot path) =
      dir ++ [name ++ ".tmp"] := by
    rw [hfp]
    unfold tempSibling
    rw [List.dropLast_concat, List.getLast?_concat]
    rfl
  have hT : resolveComps (tempSibling (resolvePathComps rw.projectRoot path)) =
      resolveComps dir ++ [name ++ ".tmp"] := by
    rw [htempS]
    exact resolveComps_append_single dir (name ++ ".tmp")
      (append_tmp_ne_empty name) (append_tmp_ne_dot name) (append_tmp_ne_dotdot name)
  have hKT : K ≠ resolveComps (tempSibling (resolvePathComps rw.projectRoot path)) := by
    rw [hK2, hT]
    intro he
    have h2 : [name] = [name ++ ".tmp"] := List.append_cancel_left he
    have h3 : name = name ++ ".tmp" := by simpa using h2
    exact append_tmp_ne_self name h3.symm
  have hKlast : K.getLast? = some name := by
    rw [hK2]
    exact List.getLast?_concat _
  have hrellast : rel.getLast? = some name := by
    have h0 := hKlast
    rw [hKrel, getLast?_append_ne _ _ hrelne] at h0
    exact h0
  have hSDrelT : SD ++ rel ≠
      resolveComps (tempSibling (resolvePathComps rw.projectRoot path)) := by
    intro he
    have h1 : (SD ++ rel).getLast? = some name := by
      rw [getLast?_append_ne _ _ hrelne]
      exact hrellast
    rw [he, hT, List.getLast?_concat] at h1
    have : name ++ ".tmp" = name := by simpa using h1
    exact append_tmp_ne_self name this
  have hSDrelK : SD ++ rel ≠ K := by
    intro he
    have hl := congrArg List.length he
    rw [List.length_append, hSD2, hSR2, hKrel] at hl
    simp [List.length_append] at hl
  have hpSDrel : strictBelow SD (SD ++ rel) = true := by
    rw [strictBelow_iff]
    refine ⟨List.prefix_append _ _, ?_⟩
    rw [List.length_append]
    have : 0 < rel.length := List.length_pos.mpr hrelne
    omega
  have hpSDK : strictBelow SD K = false := by
    rw [Bool.eq_false_iff]
    intro hb
    exact hSRK (hSRSD.trans ((strictBelow_iff _ _).mp hb).1)
  have holdF : ∀ e, e ∈ fs.files → strictBelow SD e.1 = false := by
    intro e he
    rw [Bool.eq_false_iff]
    intro hb
    exact hfreshF e he (hSRSD.trans ((strictBelow_iff _ _).mp hb).1)
  -- ## step 1: create_snapshot
  have hfileX : fsFind fs (resolveComps (resolvePathComps rw.projectRoot path)) = some c0 := by
    rw [← hKdef]
    exact hfile
  have hCexp : rw.createSnapshot fs [path] snapId =
      (fsSet
        (mkdirParents (mkdirParents fs (snapshotDir rw.projectRoot snapId))
          ((snapshotDir rw.projectRoot snapId ++
            (resolveComps (resolvePathComps rw.projectRoot path)).drop
              (resolveComps rw.projectRoot).length).dropLast))
        (snapshotDir rw.projectRoot snapId ++
          (resolveComps (resolvePathComps rw.projectRoot path)).drop
            (resolveComps rw.projectRoot).length) c0,
       true, some snapId, none) := by
    unfold ReadWrite.createSnapshot
    unfold snapshotCopyLoop
    have hex : pathExists (mkdirParents fs (snapshotDir rw.projectRoot snapId))
        (resolveComps (resolvePathComps rw.projectRoot path)) = true := by
      simp [pathExists, fsFind_mkdirParents, hfileX]
    simp only [fsFind_mkdirParents, hfileX, hsafe, hex, Bool.not_true, Bool.false_eq_true,
      if_false]
    unfold snapshotCopyLoop
    rfl
  have hC : rw.createSnapshot fs [path] snapId =
      (fsSet (mkdirParents (mkdirParents fs SD) ((SD ++ rel).dropLast)) (SD ++ rel) c0,
       true, some snapId, none) := by
    rw [hCexp, hSDdef, hreldef, hKdef, hrootR]
  -- ## step 2: the overwrite
  have hWeq := ReadWrite.write_eq_of_safe rw (rw.createSnapshot fs [path] snapId).1
    path c1 false hsafe hsize
  have hWflag : (rw.write (rw.createSnapshot fs [path] snapId).1 path c1 false).2.1 = true := by
    rw [hWeq]
    rfl
  have hWfiles : (rw.write (rw.createSnapshot fs [path] snapId).1 path c1 false).1.files =
      (K, c1) :: List.filter (fun e => !(e.1 == K))
        (List.filter (fun e => !(e.1 ==
            resolveComps (tempSibling (resolvePathComps rw.projectRoot path))))
          ((resolveComps (tempSibling (resolvePathComps rw.projectRoot path)), c1) ::
            List.filter (fun e => !(e.1 ==
                resolveComps (tempSibling (resolvePathComps rw.projectRoot path))))
              ((SD ++ rel, c0) ::
                List.filter (fun e => !(e.1 == SD ++ rel)) fs.files))) := by
    rw [hWeq, hC, ← hKdef]
    rfl
  have hWdirs : (rw.write (rw.createSnapshot fs [path] snapId).1 path c1 false).1.dirs =
      (resolveComps (resolvePathComps rw.projectRoot path).dropLast).inits ++
        ((SD ++ rel).dropLast.inits ++ (SD.inits ++ fs.dirs)) := by
    rw [hWeq, hC]
    rfl
  -- filter bookkeeping for the snapshot copy
  have hbSDrelT : ((SD ++ rel) ==
      resolveComps (tempSibling (resolvePathComps rw.projectRoot path))) = false :=
    beq_eq_false_iff_ne.mpr hSDrelT
  have hbSDrelK : ((SD ++ rel) == K) = false := beq_eq_false_iff_ne.mpr hSDrelK
  have hJmem : ∀ e, e ∈ List.filter (fun e => !(e.1 == K))
      (List.filter (fun e => !(e.1 ==
          resolveComps (tempSibling (resolvePathComps rw.projectRoot path))))
        (List.filter (fun e => !(e.1 ==
            resolveComps (tempSibling (resolvePathComps rw.projectRoot path))))
          (List.filter (fun e => !(e.1 == SD ++ rel)) fs.files))) → e ∈ fs.files := by
    intro e he
    exact List.mem_of_mem_filter (List.mem_of_mem_filter (List.mem_of_mem_filter
      (List.mem_of_mem_filter he)))
  have htoR : List.filter (fun e => strictBelow SD e.1)
      ((rw.write (rw.createSnapshot fs [path] snapId).1 path c1 false).1.files) =
      [(SD ++ rel, c0)] := by
    rw [hWfiles]
    rw [show List.filter (fun e => !(e.1 ==
        resolveComps (tempSibling (resolvePathComps rw.projectRoot path))))
        ((SD ++ rel, c0) :: List.filter (fun e => !(e.1 == SD ++ rel)) fs.files) =
        (SD ++ rel, c0) :: List.filter (fun e => !(e.1 ==
            resolveComps (tempSibling (resolvePathComps rw.projectRoot path))))
          (List.filter (fun e => !(e.1 == SD ++ rel)) fs.files) from by
      simp [List.filter_cons, hbSDrelT]]
    rw [show List.filter (fun e => !(e.1 ==
        resolveComps (tempSibling (resolvePathComps rw.projectRoot path))))
        ((resolveComps (tempSibling (resolvePathComps rw.projectRoot path)), c1) ::
          (SD ++ rel, c0) :: List.filter (fun e => !(e.1 ==
              resolveComps (tempSibling (resolvePathComps rw.projectRoot path))))
            (List.filter (fun e => !(e.1 == SD ++ rel)) fs.files)) =
        (SD ++ rel, c0) :: List.filter (fun e => !(e.1 ==
            resolveComps (tempSibling (resolvePathComps rw.projectRoot path))))
          (List.filter (fun e => !(e.1 ==
              resolveComps (tempSibling (resolvePathComps rw.projectRoot path))))
            (List.filter (fun e => !(e.1 == SD ++ rel)) fs.files)) from by
      simp [List.filter_cons, hbSDrelT]]
    rw [show List.filter (fun e => !(e.1 == K))
        ((SD ++ rel, c0) :: List.filter (fun e => !(e.1 ==
            resolveComps (tempSibling (resolvePathComps rw.projectRoot path))))
          (List.filter (fun e => !(e.1 ==
              resolveComps (tempSibling (resolvePathComps rw.projectRoot path))))
            (List.filter (fun e => !(e.1 == SD ++ rel)) fs.files))) =
        (SD ++ rel, c0) :: List.filter (fun e => !(e.1 == K))
          (List.filter (fun e => !(e.1 ==
              resolveComps (tempSibling (resolvePathComps rw.projectRoot path))))
            (List.filter (fun e => !(e.1 ==
                resolveComps (tempSibling (resolvePathComps rw.projectRoot path))))
              (List.filter (fun e => !(e.1 == SD ++ rel)) fs.files))) from by
      simp [List.filter_cons, hbSDrelK]]
    simp only [List.filter_cons, hpSDK, hpSDrel, Bool.false_eq_true, if_false, if_true]
    rw [List.filter_eq_nil_iff.mpr]
    intro e he
    rw [holdF e (hJmem e he)]
    simp
  -- ## step 3: restore
  have hPdirs : resolveComps (resolvePathComps rw.projectRoot path).dropLast = K.dropLast := by
    rw [hfp, List.dropLast_concat, hK2, List.dropLast_concat]
  have hWdirs2 : (rw.write (rw.createSnapshot fs [path] snapId).1 path c1 false).1.dirs =
      K.dropLast.inits ++ ((SD ++ rel).dropLast.inits ++ (SD.inits ++ fs.dirs)) := by
    rw [hWdirs, hPdirs]
  have hSDinSD : SD ∈ SD.inits := by
    rw [List.mem_inits]
  have hSRinSD : SR ∈ SD.inits := by
    rw [List.mem_inits]
    exact hSRSD
  have hSDmemW : SD ∈
      (rw.write (rw.createSnapshot fs [path] snapId).1 path c1 false).1.dirs := by
    rw [hWdirs2]
    exact List.mem_append_right _ (List.mem_append_right _ (List.mem_append_left _ hSDinSD))
  have hexistsW : pathExists
      (rw.write (rw.createSnapshot fs [path] snapId).1 path c1 false).1 SD = true := by
    have hdir : isDirAt
        (rw.write (rw.createSnapshot fs [path] snapId).1 path c1 false).1 SD = true := by
      unfold isDirAt
      rw [Bool.or_eq_true, Bool.or_eq_true]
      exact Or.inl (Or.inl (List.any_eq_true.mpr ⟨SD, hSDmemW, by simp⟩))
    unfold pathExists
    rw [hdir, Bool.or_true]
  have hRdest : resolveComps (rw.projectRoot ++ rel) = K := by
    rw [resolveComps_append_normal _ _ hrelNormal, ← hrootR, ← hKrel]
  have hR : rw.restoreSnapshot
      (rw.write (rw.createSnapshot fs [path] snapId).1 path c1 false).1 snapId =
      (fsSet (mkdirParents
        (rw.write (rw.createSnapshot fs [path] snapId).1 path c1 false).1 K.dropLast) K c0,
       true, none) := by
    unfold ReadWrite.restoreSnapshot
    rw [← hSDdef]
    simp only [hexistsW, Bool.not_true, Bool.false_eq_true, if_false]
    rw [htoR]
    simp only [List.foldl_cons, List.foldl_nil]
    rw [List.drop_left, hRdest]
  -- ## step 4: list_snapshots on the restored state
  have hRdirs : (rw.restoreSnapshot
      (rw.write (rw.createSnapshot fs [path] snapId).1 path c1 false).1 snapId).1.dirs =
      K.dropLast.inits ++
        (K.dropLast.inits ++ ((SD ++ rel).dropLast.inits ++ (SD.inits ++ fs.dirs))) := by
    rw [hR]
    show K.dropLast.inits ++
      (rw.write (rw.createSnapshot fs [path] snapId).1 path c1 false).1.dirs = _
    rw [hWdirs2]
  have hRfiles : (rw.restoreSnapshot
      (rw.write (rw.createSnapshot fs [path] snapId).1 path c1 false).1 snapId).1.files =
      (K, c0) :: List.filter (fun e => !(e.1 == K))
        ((rw.write (rw.createSnapshot fs [path] snapId).1 path c1 false).1.files) := by
    rw [hR]
    rfl
  have hWkeys : ∀ e, e ∈
      (rw.write (rw.createSnapshot fs [path] snapId).1 path c1 false).1.files →
      e.1 = K ∨ e.1 = SD ++ rel ∨ e ∈ fs.files := by
    intro e he
    rw [hWfiles] at he
    rcases List.mem_cons.mp he with h1 | he1
    · left
      rw [h1]
    obtain ⟨he2, hpT⟩ := List.mem_filter.mp (List.mem_of_mem_filter he1)
    right
    rcases List.mem_cons.mp he2 with h2 | he3
    · exfalso
      rw [h2] at hpT
      simp at hpT
    rcases List.mem_cons.mp (List.mem_of_mem_filter he3) with h3 | he4
    · left
      rw [h3]
    · right
      exact List.mem_of_mem_filter he4
  have hdirsName : ∀ x, x ∈ childNamesFrom (rw.restoreSnapshot
      (rw.write (rw.createSnapshot fs [path] snapId).1 path c1 false).1 snapId).1.dirs SR →
      x = snapId := by
    intro x hx
    obtain ⟨d, hd, hsb, hget⟩ := mem_childNamesFrom.mp hx
    obtain ⟨hpre, hlen⟩ := (strictBelow_iff _ _).mp hsb
    rw [hRdirs] at hd
    rcases List.mem_append.mp hd with hd1 | hd'
    · exact absurd (hpre.trans (((List.mem_inits _ _).mp hd1).trans (List.dropLast_prefix K))) hSRK
    rcases List.mem_append.mp hd' with hd1 | hd''
    · exact absurd (hpre.trans (((List.mem_inits _ _).mp hd1).trans (List.dropLast_prefix K))) hSRK
    rcases List.mem_append.mp hd'' with hd2 | hd'''
    · have hdpre : d <+: SD ++ rel :=
        ((List.mem_inits _ _).mp hd2).trans (List.dropLast_prefix _)
      have hq := get?_of_prefix d (SD ++ rel) hdpre SR.length hlen
      rw [hget, hSDrelget] at hq
      exact (Option.some.inj hq).symm
    rcases List.mem_append.mp hd''' with hd3 | hd4
    · have hdpre : d <+: SD ++ rel :=
        ((List.mem_inits _ _).mp hd3).trans (List.prefix_append _ _)
      have hq := get?_of_prefix d (SD ++ rel) hdpre SR.length hlen
      rw [hget, hSDrelget] at hq
      exact (Option.some.inj hq).symm
    · exact absurd hpre (hfreshD d hd4)
  have hfilesName : ∀ x, x ∈ childNamesFrom ((rw.restoreSnapshot
      (rw.write (rw.createSnapshot fs [path] snapId).1 path c1 false).1 snapId).1.files.map
        (fun e => e.1)) SR → x = snapId := by
    intro x hx
    obtain ⟨d, hd, hsb, hget⟩ := mem_childNamesFrom.mp hx
    obtain ⟨hpre, hlen⟩ := (strictBelow_iff _ _).mp hsb
    rw [hRfiles] at hd
    obtain ⟨e, he, hed⟩ := List.mem_map.mp hd
    rcases List.mem_cons.mp he with h1 | he2
    · exfalso
      have hdK : d = K := hed.symm.trans (by rw [h1])
      exact hSRK (hdK ▸ hpre)
    rcases hWkeys e (List.mem_of_mem_filter he2) with hk | hk | hk
    · exact absurd (hed.symm.trans hk ▸ hpre) hSRK
    · have hd2 : d = SD ++ rel := hed.symm.trans hk
      rw [hd2, hSDrelget] at hget
      exact (Option.some.inj hget).symm
    · exact absurd hpre (hed ▸ hfreshF e hk)
  have hSDmemR : SD ∈ (rw.restoreSnapshot
      (rw.write (rw.createSnapshot fs [path] snapId).1 path c1 false).1 snapId).1.dirs := by
    rw [hRdirs]
    exact List.mem_append_right _ (List.mem_append_right _ (List.mem_append_right _
      (List.mem_append_left _ hSDinSD)))
  have hSRmemR : SR ∈ (rw.restoreSnapshot
      (rw.write (rw.createSnapshot fs [path] snapId).1 path c1 false).1 snapId).1.dirs := by
    rw [hRdirs]
    exact List.mem_append_right _ (List.mem_append_right _ (List.mem_append_right _
      (List.mem_append_left _ hSRinSD)))
  have hsnapMem : snapId ∈ childNamesFrom (rw.restoreSnapshot
      (rw.write (rw.createSnapshot fs [path] snapId).1 path c1 false).1 snapId).1.dirs SR := by
    apply mem_childNamesFrom.mpr
    refine ⟨SD, hSDmemR, ?_, ?_⟩
    · rw [strictBelow_iff]
      refine ⟨hSRSD, ?_⟩
      rw [hSD2, List.length_append, List.length_singleton]
      omega
    · rw [hSD2]
      exact get?_append_length SR snapId []
  have hdedup : dedupStr (childNamesFrom (rw.restoreSnapshot
      (rw.write (rw.createSnapshot fs [path] snapId).1 path c1 false).1 snapId).1.dirs SR ++
      childNamesFrom ((rw.restoreSnapshot
        (rw.write (rw.createSnapshot fs [path] snapId).1 path c1 false).1 snapId).1.files.map
          (fun e => e.1)) SR) = [snapId] := by
    apply dedupStr_const _ snapId (List.ne_nil_of_mem (List.mem_append_left _ hsnapMem))
    intro x hx
    rcases List.mem_append.mp hx with h | h
    · exact hdirsName x h
    · exact hfilesName x h
  have hisDir : isDirAt (rw.restoreSnapshot
      (rw.write (rw.createSnapshot fs [path] snapId).1 path c1 false).1 snapId).1
      (SR ++ [snapId]) = true := by
    unfold isDirAt
    rw [Bool.or_eq_true, Bool.or_eq_true]
    refine Or.inl (Or.inl (List.any_eq_true.mpr ⟨SD, hSDmemR, ?_⟩))
    simp [hSD2]
  have hexR : pathExists (rw.restoreSnapshot
      (rw.write (rw.createSnapshot fs [path] snapId).1 path c1 false).1 snapId).1 SR = true := by
    have hdir : isDirAt (rw.restoreSnapshot
        (rw.write (rw.createSnapshot fs [path] snapId).1 path c1 false).1 snapId).1 SR = true := by
      unfold isDirAt
      rw [Bool.or_eq_true, Bool.or_eq_true]
      exact Or.inl (Or.inl (List.any_eq_true.mpr ⟨SR, hSRmemR, by simp⟩))
    unfold pathExists
    rw [hdir, Bool.or_true]
  have hL : rw.listSnapshots (rw.restoreSnapshot
      (rw.write (rw.createSnapshot fs [path] snapId).1 path c1 false).1 snapId).1 =
      [snapId] := by
    unfold ReadWrite.listSnapshots
    rw [← hSRdef]
    simp only [hexR, Bool.not_true, Bool.false_eq_true, if_false]
    rw [hdedup]
    simp only [List.filter_cons, List.filter_nil, hisDir, if_true]
    rfl
  -- ## assemble the conjunction
  refine ⟨by rw [hC], by rw [hC], hWflag, by rw [hR], ?_, hL⟩
  rw [hR]
  exact fsFind_fsSet_self _ _ _

/-- Witness for C8: project root `/proj`, file `main.py` holding `old`,
overwritten with `new` after a snapshot with id `20240101_000000_000000`. -/
theorem C8_snapshot_restore_roundtrip_witness :
    (ReadWrite.createSnapshot ⟨["proj"], 8388608, 2097152⟩
      ⟨[(["proj", "main.py"], "old")], []⟩ ["main.py"] "20240101_000000_000000").2.1 = true ∧
    (ReadWrite.createSnapshot ⟨["proj"], 8388608, 2097152⟩
      ⟨[(["proj", "main.py"], "old")], []⟩ ["main.py"] "20240101_000000_000000").2.2.1 =
      some "20240101_000000_000000" ∧
    (ReadWrite.write ⟨["proj"], 8388608, 2097152⟩
      (ReadWrite.createSnapshot ⟨["proj"], 8388608, 2097152⟩
        ⟨[(["proj", "main.py"], "old")], []⟩ ["main.py"] "20240101_000000_000000").1
      "main.py" "new" false).2.1 = true ∧
    (ReadWrite.restoreSnapshot ⟨["proj"], 8388608, 2097152⟩
      (ReadWrite.write ⟨["proj"], 8388608, 2097152⟩
        (ReadWrite.createSnapshot ⟨["proj"], 8388608, 2097152⟩
          ⟨[(["proj", "main.py"], "old")], []⟩ ["main.py"] "20240101_000000_000000").1
        "main.py" "new" false).1 "20240101_000000_000000").2.1 = true ∧
    fsFind (ReadWrite.restoreSnapshot ⟨["proj"], 8388608, 2097152⟩
      (ReadWrite.write ⟨["proj"], 8388608, 2097152⟩
        (ReadWrite.createSnapshot ⟨["proj"], 8388608, 2097152⟩
          ⟨[(["proj", "main.py"], "old")], []⟩ ["main.py"] "20240101_000000_000000").1
        "main.py" "new" false).1 "20240101_000000_000000").1 ["proj", "main.py"] =
      some "old" ∧
    ReadWrite.listSnapshots ⟨["proj"], 8388608, 2097152⟩
      (ReadWrite.restoreSnapshot ⟨["proj"], 8388608, 2097152⟩
        (ReadWrite.write ⟨["proj"], 8388608, 2097152⟩
          (ReadWrite.createSnapshot ⟨["proj"], 8388608, 2097152⟩
            ⟨[(["proj", "main.py"], "old")], []⟩ ["main.py"] "20240101_000000_000000").1
          "main.py" "new" false).1 "20240101_000000_000000").1 =
      ["20240101_000000_000000"] :=
  C8_snapshot_restore_roundtrip ⟨["proj"], 8388608, 2097152⟩
    ⟨[(["proj", "main.py"], "old")], []⟩ "main.py" "old" "new" "20240101_000000_000000"
    ["proj"] "main.py"
    ["proj", "main.py"] ["proj", ".pitcrew", "snapshots", "20240101_000000_000000"]
    ["proj", ".pitcrew", "snapshots"] ["proj"] ["main.py"]
    (by rfl) (by rfl) (by rfl) (by rfl) (by rfl) (by rfl)
    (by decide) (by decide) (by decide) (by decide) (by rfl) (by decide) (by decide)
    (by decide) (by decide) (by decide) (by decide) (by decide)

/-- Claim C9: a patch whose diff contains `@@ -0,0 +` never reaches the
patch engine; the orchestrator instead writes the diff's added lines
(lines starting with `+` but not `+++`, stripped of the `+`, joined by
newlines) as the file's full content. -/
theorem C9_creation_patch_bypasses_engine (p : String)
    (h : strContains p "@@ -0,0 +" = true) :
    patchBranchDispatch p =
      PatchDispatch.viaWrite (String.intercalate "\n"
        (((pySplitChar p '\n').filter
          (fun l => pyStartsWith l "+" && !(pyStartsWith l "+++"))).map
          (fun l => l.drop 1))) ∧
    ∀ c, patchBranchDispatch p ≠ PatchDispatch.viaEngine c := by
  unfold patchBranchDispatch extractAddedLines
  refine ⟨by simp [h], ?_⟩
  intro c
  simp [h]

/-- Witness for C9 on a concrete creation patch. -/
theorem C9_creation_patch_witness :
    patchBranchDispatch "--- /dev/null\n+++ b/new.py\n@@ -0,0 +1,2 @@\n+line1\n+line2\n" =
      PatchDispatch.viaWrite "line1\nline2" := by
  have h := C9_creation_patch_bypasses_engine
    "--- /dev/null\n+++ b/new.py\n@@ -0,0 +1,2 @@\n+line1\n+line2\n" (by rfl)
  rw [h.1]
  rfl

/-- Claim C10: a post-check command that is `python` or starts with
`python ` has its first occurrence of `python` rewritten to `python3`
before execution; every other command is passed through unchanged. -/
theorem C10_python3_rewrite :
    (∀ rest : String, fixPythonCommand ("python " ++ rest) = "python3 " ++ rest) ∧
    fixPythonCommand "python" = "python3" ∧
    (∀ c : String, pyStartsWith c "python " = false → (c == "python") = false →
      fixPythonCommand c = c) := by
  refine ⟨?_, by rfl, ?_⟩
  · intro rest
    obtain ⟨rl⟩ := rest
    have hpre : pyStartsWith ("python " ++ (⟨rl⟩ : String)) "python " = true := by
      simp [pyStartsWith, List.isPrefixOf, String.data_append]
    simp only [fixPythonCommand, hpre, Bool.true_or, if_true]
    rfl
  · intro c h1 h2
    simp [fixPythonCommand, h1, h2]

end PitCrew
